import Mathlib

/-!
Verification development for the UnLeaf process power-state enforcement engine.

The C++ sources under `src/common/registry_manager.cpp`, `src/common/types.h`
and `src/service/engine_core.cpp` are shallowly embedded as executable Lean
definitions.  OS interactions (registry calls, timer-queue calls, process
handles, the EcoQoS query) are represented either by explicit model state or
by oracle parameters; machine timestamps (`ULONGLONG` tick counts) are `Nat`
with explicit wrap-around subtraction where the source subtracts unsigned
values.
-/

namespace UnLeaf

/-! ## Association lists (model of `std::map` / registry value lists) -/

/-- Lookup keyed on the first component (models `std::map::find`). -/
def alookup {κ α : Type} [DecidableEq κ] : List (κ × α) → κ → Option α
  | [], _ => none
  | (k, v) :: t, k' => if k = k' then some v else alookup t k'

/-- Erase every pair with the given key (a `std::map` has unique keys, so this
models `std::map::erase`). -/
def aerase {κ α : Type} [DecidableEq κ] (l : List (κ × α)) (k : κ) : List (κ × α) :=
  l.filter (fun p => p.1 ≠ k)

/-- Insert or overwrite the binding for a key (models `map[k] = v`). -/
def ainsert {κ α : Type} [DecidableEq κ] (l : List (κ × α)) (k : κ) (v : α) : List (κ × α) :=
  (k, v) :: aerase l k

theorem alookup_ainsert_self {κ α : Type} [DecidableEq κ]
    (l : List (κ × α)) (k : κ) (v : α) : alookup (ainsert l k v) k = some v := by
  simp [ainsert, alookup]

theorem alookup_aerase {κ α : Type} [DecidableEq κ]
    (l : List (κ × α)) (k k' : κ) :
    alookup (aerase l k) k' = if k' = k then none else alookup l k' := by
  induction l with
  | nil => simp [aerase, alookup]
  | cons p t ih =>
      obtain ⟨a, b⟩ := p
      by_cases hak : a = k <;> by_cases hak' : a = k' <;>
        simp_all [aerase, alookup]

theorem alookup_aerase_self {κ α : Type} [DecidableEq κ]
    (l : List (κ × α)) (k : κ) : alookup (aerase l k) k = none := by
  simp [alookup_aerase]

theorem alookup_aerase_ne {κ α : Type} [DecidableEq κ]
    (l : List (κ × α)) (k k' : κ) (h : k' ≠ k) :
    alookup (aerase l k) k' = alookup l k' := by
  simp [alookup_aerase, h]

theorem alookup_aerase_absent {κ α : Type} [DecidableEq κ]
    (l : List (κ × α)) (k k' : κ) (h : alookup l k' = none) :
    alookup (aerase l k) k' = none := by
  rw [alookup_aerase]
  split
  · rfl
  · exact h

theorem alookup_mem {κ α : Type} [DecidableEq κ]
    (l : List (κ × α)) (k : κ) (v : α) (h : alookup l k = some v) : (k, v) ∈ l := by
  induction l with
  | nil => simp [alookup] at h
  | cons p t ih =>
      obtain ⟨a, b⟩ := p
      by_cases ha : a = k
      · subst ha
        simp [alookup] at h
        simp [h]
      · simp [alookup, ha] at h
        exact List.mem_cons_of_mem _ (ih h)

/-! ## Strings

`ToLower` (types.h) maps `towlower` over the wide string; image names are
ASCII, so `Char.toLower` is a faithful model. -/

/-- Model of `unleaf::ToLower` (types.h). -/
def toLowerStr (s : String) : String := ⟨s.data.map Char.toLower⟩

/-! ## Durable policy ledger: `RegistryPolicyManager` (registry_manager.cpp)

The model state carries the in-memory `appliedPolicies_` map, the manifest
file (`none` = absent from disk), the `PowerThrottling` registry key
(`none` = key absent; otherwise its value list) and the set of existing
IFEO `PerfOptions` keys.  Windows registry name comparison is
case-insensitive, which the model realises by lowering names at the registry
boundary.  Each operation additionally returns the ordered trace of
externally visible ledger/registry operations it issued. -/

/-- `IFEO_CPU_PRIORITY_HIGH` (registry_manager.h). -/
def IFEO_CPU_PRIORITY_HIGH : Nat := 3

/-- Externally visible operations issued by the ledger, in program order. -/
inductive LedgerOp
  | mapInsert (lowerName : String)
  | saveManifest
  | writePowerThrottling (path : String)
  | writeIFEO (name : String)
  | deletePowerThrottling (path : String)
  | deleteIFEO (name : String)
  | deleteManifestFile
  deriving DecidableEq, Repr

/-- The two underlying OS policy mutations of `ApplyPolicy`. -/
def LedgerOp.isRegistryMutation : LedgerOp → Bool
  | .writePowerThrottling _ => true
  | .writeIFEO _ => true
  | _ => false

/-- State of `RegistryPolicyManager` plus the parts of the environment it
mutates (manifest file, registry). -/
structure LedgerState where
  appliedPolicies : List (String × String)
  manifest : Option (List (String × String))
  ptKey : Option (List (String × Nat))
  ifeo : List (String × Nat)
  deriving DecidableEq, Repr

/-- `RegistryPolicyManager::SaveManifest`: rewrites the manifest file from the
in-memory map (the model file write succeeds; the source ignores failures of
this call inside `ApplyPolicy`). -/
def saveManifest (s : LedgerState) : LedgerState × Bool × List LedgerOp :=
  ({ s with manifest := some s.appliedPolicies }, true, [.saveManifest])

/-- `RegistryPolicyManager::LoadManifest`: a missing file is normal; each
parsed `key=value` line with nonempty parts is inserted under the lowered
key. -/
def loadManifest (s : LedgerState) : LedgerState × Bool :=
  match s.manifest with
  | none => (s, true)
  | some entries =>
      (entries.foldl
        (fun st e =>
          if e.1 = "" ∨ e.2 = "" then st
          else { st with appliedPolicies := ainsert st.appliedPolicies (toLowerStr e.1) e.2 })
        s, true)

/-- `RegistryPolicyManager::DeleteManifest`: `DeleteFileW` succeeding or
failing with `ERROR_FILE_NOT_FOUND` are both success. -/
def deleteManifest (s : LedgerState) : LedgerState × Bool × List LedgerOp :=
  ({ s with manifest := none }, true, [.deleteManifestFile])

/-- `RegistryPolicyManager::DeleteValue`: `RegDeleteValueW` returning
`ERROR_SUCCESS` or `ERROR_FILE_NOT_FOUND` (value absent) are both success. -/
def deleteValue (vals : List (String × Nat)) (valueName : String) :
    List (String × Nat) × Bool :=
  (aerase vals (toLowerStr valueName), true)

/-- `RegistryPolicyManager::SetDwordValue` under an open key. -/
def setDwordValue (vals : List (String × Nat)) (valueName : String) (value : Nat) :
    List (String × Nat) × Bool :=
  (ainsert vals (toLowerStr valueName) value, true)

/-- `RegistryPolicyManager::DisablePowerThrottling`: `EnsureKeyExists` creates
the `PowerThrottling` key when absent, then the path is written as a DWORD
value `1`. -/
def disablePowerThrottling (s : LedgerState) (exePath : String) :
    LedgerState × Bool × List LedgerOp :=
  let vals := s.ptKey.getD []
  let r := setDwordValue vals exePath 1
  ({ s with ptKey := some r.1 }, r.2, [.writePowerThrottling exePath])

/-- `RegistryPolicyManager::EnablePowerThrottling`: if `RegOpenKeyExW` fails
because the key does not exist there is nothing to remove (success); otherwise
the value is deleted via `DeleteValue`. -/
def enablePowerThrottling (s : LedgerState) (exePath : String) :
    LedgerState × Bool × List LedgerOp :=
  match s.ptKey with
  | none => (s, true, [])
  | some vals =>
      let r := deleteValue vals exePath
      ({ s with ptKey := some r.1 }, r.2, [.deletePowerThrottling exePath])

/-- `RegistryPolicyManager::SetIFEOPerfOptions`: creates
`IFEO\exeName\PerfOptions` and writes `CpuPriorityClass`. -/
def setIFEOPerfOptions (s : LedgerState) (exeName : String) (cpuPriority : Nat) :
    LedgerState × Bool × List LedgerOp :=
  ({ s with ifeo := ainsert s.ifeo (toLowerStr exeName) cpuPriority }, true,
   [.writeIFEO exeName])

/-- `RegistryPolicyManager::RemoveIFEOPerfOptions`: `RegDeleteKeyW` returning
`ERROR_SUCCESS` or `ERROR_FILE_NOT_FOUND` (key absent) are both success. -/
def removeIFEOPerfOptions (s : LedgerState) (exeName : String) :
    LedgerState × Bool × List LedgerOp :=
  ({ s with ifeo := aerase s.ifeo (toLowerStr exeName) }, true, [.deleteIFEO exeName])

/-- `RegistryPolicyManager::ApplyPolicy` (registry_manager.cpp:269-303). -/
def applyPolicy (s : LedgerState) (exeName exeFullPath : String) :
    LedgerState × Bool × List LedgerOp :=
  let lowerName := toLowerStr exeName
  if (alookup s.appliedPolicies lowerName).isSome then
    (s, true, [])
  else
    let s1 := { s with appliedPolicies := ainsert s.appliedPolicies lowerName exeFullPath }
    let r2 := saveManifest s1
    let r3 := disablePowerThrottling r2.1 exeFullPath
    let r4 := setIFEOPerfOptions r3.1 exeName IFEO_CPU_PRIORITY_HIGH
    (r4.1, r3.2.1 && r4.2.1,
     LedgerOp.mapInsert lowerName :: (r2.2.2 ++ r3.2.2 ++ r4.2.2))

/-- `RegistryPolicyManager::RemoveSinglePolicy` (return values of the two
removal helpers are ignored by the source). -/
def removeSinglePolicy (s : LedgerState) (exeName fullPath : String) :
    LedgerState × List LedgerOp :=
  let r1 := enablePowerThrottling s fullPath
  let r2 := removeIFEOPerfOptions r1.1 exeName
  (r2.1, r1.2.2 ++ r2.2.2)

/-- The range-for loop of `RemoveAllPolicies`: remove each map entry's
policies in order, concatenating the issued operation traces. -/
def removePoliciesLoop : LedgerState → List (String × String) → LedgerState × List LedgerOp
  | s, [] => (s, [])
  | s, e :: rest =>
      let r := removeSinglePolicy s e.1 e.2
      let r2 := removePoliciesLoop r.1 rest
      (r2.1, r.2 ++ r2.2)

/-- `RegistryPolicyManager::RemoveAllPolicies` (registry_manager.cpp:344-373):
reload the manifest, remove each entry's policies, clear the map, delete the
manifest file.  Missing manifest, keys and values are normal. -/
def removeAllPolicies (s : LedgerState) : LedgerState × List LedgerOp :=
  let s1 := (loadManifest s).1
  if s1.appliedPolicies.isEmpty then
    let r2 := deleteManifest s1
    (r2.1, r2.2.2)
  else
    let acc := removePoliciesLoop s1 s1.appliedPolicies
    let s3 := { acc.1 with appliedPolicies := [] }
    let r4 := deleteManifest s3
    (r4.1, acc.2 ++ r4.2.2)

/-- `RegistryPolicyManager::IsPolicyApplied`. -/
def isPolicyApplied (s : LedgerState) (exeName : String) : Bool :=
  (alookup s.appliedPolicies (toLowerStr exeName)).isSome

/-- The PowerThrottling value for a path is absent (key missing counts). -/
def ptValueAbsent (s : LedgerState) (path : String) : Prop :=
  match s.ptKey with
  | none => True
  | some vals => alookup vals (toLowerStr path) = none

/-- The IFEO PerfOptions key for an image name is absent. -/
def ifeoAbsent (s : LedgerState) (name : String) : Prop :=
  alookup s.ifeo (toLowerStr name) = none

/-- An already-clean ledger: no entries, no manifest file, no registry keys. -/
def cleanLedger : LedgerState := ⟨[], none, none, []⟩

theorem removeSinglePolicy_appliedPolicies (s : LedgerState) (n p : String) :
    (removeSinglePolicy s n p).1.appliedPolicies = s.appliedPolicies := by
  cases hpt : s.ptKey <;>
    simp [removeSinglePolicy, enablePowerThrottling, removeIFEOPerfOptions, deleteValue, hpt]

theorem removeSinglePolicy_establishes (s : LedgerState) (n p : String) :
    ptValueAbsent (removeSinglePolicy s n p).1 p ∧ ifeoAbsent (removeSinglePolicy s n p).1 n := by
  cases hpt : s.ptKey <;>
    simp [removeSinglePolicy, enablePowerThrottling, removeIFEOPerfOptions, deleteValue,
          ptValueAbsent, ifeoAbsent, hpt, alookup_aerase_self]

theorem removeSinglePolicy_preserves (s : LedgerState) (n p n' p' : String)
    (hpt : ptValueAbsent s p') (hif : ifeoAbsent s n') :
    ptValueAbsent (removeSinglePolicy s n p).1 p' ∧
      ifeoAbsent (removeSinglePolicy s n p).1 n' := by
  cases h : s.ptKey with
  | none =>
      refine ⟨?_, ?_⟩ <;>
        simp_all [removeSinglePolicy, enablePowerThrottling, removeIFEOPerfOptions,
                  deleteValue, ptValueAbsent, ifeoAbsent, alookup_aerase_absent]
  | some vals =>
      have hv : alookup vals (toLowerStr p') = none := by
        simpa [ptValueAbsent, h] using hpt
      refine ⟨?_, ?_⟩ <;>
        simp_all [removeSinglePolicy, enablePowerThrottling, removeIFEOPerfOptions,
                  deleteValue, ptValueAbsent, ifeoAbsent, alookup_aerase_absent]

theorem removePoliciesLoop_preserves (entries : List (String × String))
    (s : LedgerState) (n' p' : String)
    (hpt : ptValueAbsent s p') (hif : ifeoAbsent s n') :
    ptValueAbsent (removePoliciesLoop s entries).1 p' ∧
      ifeoAbsent (removePoliciesLoop s entries).1 n' := by
  induction entries generalizing s with
  | nil => exact ⟨hpt, hif⟩
  | cons e rest ih =>
      have h := removeSinglePolicy_preserves s e.1 e.2 n' p' hpt hif
      simpa [removePoliciesLoop] using ih _ h.1 h.2

theorem removePoliciesLoop_absent (entries : List (String × String))
    (s : LedgerState) (n p : String) (hmem : (n, p) ∈ entries) :
    ptValueAbsent (removePoliciesLoop s entries).1 p ∧
      ifeoAbsent (removePoliciesLoop s entries).1 n := by
  induction entries generalizing s with
  | nil => cases hmem
  | cons e rest ih =>
      rcases List.mem_cons.mp hmem with he | hrest
      · subst he
        have h := removeSinglePolicy_establishes s n p
        simpa [removePoliciesLoop] using
          removePoliciesLoop_preserves rest _ n p h.1 h.2
      · simpa [removePoliciesLoop] using ih _ hrest

/-- C1: for every tracked process, `ApplyPolicy` writes the (lowercased image
name → full path) entry into the in-memory map and persists the manifest file
strictly before issuing the PowerThrottling registry write and the IFEO
PerfOptions registry write. -/
theorem applyPolicy_persists_before_mutations
    (s : LedgerState) (exeName exeFullPath : String)
    (h : alookup s.appliedPolicies (toLowerStr exeName) = none) :
    ∃ pre post,
      (applyPolicy s exeName exeFullPath).2.2 = pre ++ post ∧
      LedgerOp.mapInsert (toLowerStr exeName) ∈ pre ∧
      LedgerOp.saveManifest ∈ pre ∧
      (∀ op ∈ pre, op.isRegistryMutation = false) ∧
      post = [LedgerOp.writePowerThrottling exeFullPath, LedgerOp.writeIFEO exeName] ∧
      alookup (applyPolicy s exeName exeFullPath).1.appliedPolicies (toLowerStr exeName)
        = some exeFullPath ∧
      (applyPolicy s exeName exeFullPath).1.manifest
        = some (ainsert s.appliedPolicies (toLowerStr exeName) exeFullPath) := by
  refine ⟨[.mapInsert (toLowerStr exeName), .saveManifest],
          [.writePowerThrottling exeFullPath, .writeIFEO exeName],
          ?_, ?_, ?_, ?_, rfl, ?_, ?_⟩ <;>
    simp [applyPolicy, h, saveManifest, disablePowerThrottling, setIFEOPerfOptions,
          setDwordValue, alookup_ainsert_self, LedgerOp.isRegistryMutation]

/-- Witness for C1 at a concrete fresh ledger and image name. -/
theorem applyPolicy_persists_before_mutations_witness :
    (alookup cleanLedger.appliedPolicies (toLowerStr "App.exe") = none) ∧
    (∃ pre post,
      (applyPolicy cleanLedger "App.exe" "C:\\App.exe").2.2 = pre ++ post ∧
      LedgerOp.mapInsert (toLowerStr "App.exe") ∈ pre ∧
      LedgerOp.saveManifest ∈ pre ∧
      (∀ op ∈ pre, op.isRegistryMutation = false) ∧
      post = [LedgerOp.writePowerThrottling "C:\\App.exe", LedgerOp.writeIFEO "App.exe"] ∧
      alookup (applyPolicy cleanLedger "App.exe" "C:\\App.exe").1.appliedPolicies
          (toLowerStr "App.exe") = some "C:\\App.exe" ∧
      (applyPolicy cleanLedger "App.exe" "C:\\App.exe").1.manifest
        = some (ainsert cleanLedger.appliedPolicies (toLowerStr "App.exe") "C:\\App.exe")) :=
  ⟨rfl, applyPolicy_persists_before_mutations cleanLedger "App.exe" "C:\\App.exe" rfl⟩

/-- C4: calling `ApplyPolicy` twice with the same image name (compared
case-insensitively) performs the underlying OS registry mutations exactly
once: the second call returns true without re-writing the manifest or the
registry entries, and the ledger state after the second call equals the state
after the first. -/
theorem applyPolicy_idempotent
    (s : LedgerState) (n₁ n₂ p₁ p₂ : String)
    (hn : toLowerStr n₂ = toLowerStr n₁)
    (h : alookup s.appliedPolicies (toLowerStr n₁) = none) :
    (applyPolicy (applyPolicy s n₁ p₁).1 n₂ p₂).2.1 = true ∧
    (applyPolicy (applyPolicy s n₁ p₁).1 n₂ p₂).2.2 = [] ∧
    (applyPolicy (applyPolicy s n₁ p₁).1 n₂ p₂).1 = (applyPolicy s n₁ p₁).1 ∧
    ((applyPolicy s n₁ p₁).2.2 ++ (applyPolicy (applyPolicy s n₁ p₁).1 n₂ p₂).2.2).filter
        (fun op => op.isRegistryMutation)
      = [LedgerOp.writePowerThrottling p₁, LedgerOp.writeIFEO n₁] := by
  have hfirst : applyPolicy s n₁ p₁
      = ({ appliedPolicies := ainsert s.appliedPolicies (toLowerStr n₁) p₁,
           manifest := some (ainsert s.appliedPolicies (toLowerStr n₁) p₁),
           ptKey := some (ainsert (s.ptKey.getD []) (toLowerStr p₁) 1),
           ifeo := ainsert s.ifeo (toLowerStr n₁) IFEO_CPU_PRIORITY_HIGH },
         true,
         [LedgerOp.mapInsert (toLowerStr n₁), LedgerOp.saveManifest,
          LedgerOp.writePowerThrottling p₁, LedgerOp.writeIFEO n₁]) := by
    simp [applyPolicy, h, saveManifest, disablePowerThrottling, setIFEOPerfOptions,
          setDwordValue]
  have hgen : ∀ t : LedgerState, (alookup t.appliedPolicies (toLowerStr n₂)).isSome = true →
      applyPolicy t n₂ p₂ = (t, true, []) := by
    intro t ht
    simp [applyPolicy, ht]
  have h2 : (alookup (applyPolicy s n₁ p₁).1.appliedPolicies (toLowerStr n₂)).isSome = true := by
    rw [hfirst]
    simp [hn, alookup_ainsert_self]
  have hsecond := hgen _ h2
  refine ⟨by rw [hsecond], by rw [hsecond], by rw [hsecond], ?_⟩
  rw [hsecond]
  simp [hfirst, LedgerOp.isRegistryMutation]

/-- Witness for C4 at a concrete ledger and image-name pair differing in case. -/
theorem applyPolicy_idempotent_witness :
    (toLowerStr "APP.EXE" = toLowerStr "App.exe") ∧
    (alookup cleanLedger.appliedPolicies (toLowerStr "App.exe") = none) ∧
    ((applyPolicy (applyPolicy cleanLedger "App.exe" "C:\\App.exe").1 "APP.EXE" "D:\\Other.exe").2.1 = true ∧
     (applyPolicy (applyPolicy cleanLedger "App.exe" "C:\\App.exe").1 "APP.EXE" "D:\\Other.exe").2.2 = [] ∧
     (applyPolicy (applyPolicy cleanLedger "App.exe" "C:\\App.exe").1 "APP.EXE" "D:\\Other.exe").1
       = (applyPolicy cleanLedger "App.exe" "C:\\App.exe").1 ∧
     ((applyPolicy cleanLedger "App.exe" "C:\\App.exe").2.2 ++
        (applyPolicy (applyPolicy cleanLedger "App.exe" "C:\\App.exe").1 "APP.EXE" "D:\\Other.exe").2.2).filter
         (fun op => op.isRegistryMutation)
       = [LedgerOp.writePowerThrottling "C:\\App.exe", LedgerOp.writeIFEO "App.exe"]) :=
  ⟨by decide, rfl,
   applyPolicy_idempotent cleanLedger "App.exe" "APP.EXE" "C:\\App.exe" "D:\\Other.exe"
     (by decide) rfl⟩

/-- C5: `RemoveAllPolicies` removes every ledger entry's underlying policies,
clears the ledger, and then deletes the manifest file; invoked on an
already-clean state it succeeds and reports no error, because a missing
manifest, a missing registry key, and a missing registry value are each
treated as success rather than failure. -/
theorem removeAllPolicies_cleans
    (s : LedgerState) (n p : String)
    (hnp : alookup (loadManifest s).1.appliedPolicies n = some p) :
    (removeAllPolicies s).1.appliedPolicies = [] ∧
    (removeAllPolicies s).1.manifest = none ∧
    (∃ tr₀, (removeAllPolicies s).2 = tr₀ ++ [LedgerOp.deleteManifestFile]) ∧
    ptValueAbsent (removeAllPolicies s).1 p ∧
    ifeoAbsent (removeAllPolicies s).1 n ∧
    removeAllPolicies cleanLedger = (cleanLedger, [LedgerOp.deleteManifestFile]) ∧
    (∀ v, (deleteValue [] v).2 = true) ∧
    (∀ q, (enablePowerThrottling cleanLedger q).2.1 = true ∧
          (enablePowerThrottling cleanLedger q).2.2 = []) ∧
    (∀ m, (removeIFEOPerfOptions cleanLedger m).2.1 = true) ∧
    (deleteManifest cleanLedger).2.1 = true := by
  have hmem : (n, p) ∈ (loadManifest s).1.appliedPolicies := alookup_mem _ _ _ hnp
  have hne : (loadManifest s).1.appliedPolicies.isEmpty = false := by
    cases hl : (loadManifest s).1.appliedPolicies with
    | nil => rw [hl] at hmem; cases hmem
    | cons a t => simp
  have habs := removePoliciesLoop_absent (loadManifest s).1.appliedPolicies
      (loadManifest s).1 n p hmem
  refine ⟨?_, ?_, ?_, ?_, ?_, ?_, ?_, ?_, ?_, ?_⟩
  · simp [removeAllPolicies, hne, deleteManifest]
  · simp [removeAllPolicies, hne, deleteManifest]
  · refine ⟨(removePoliciesLoop (loadManifest s).1 (loadManifest s).1.appliedPolicies).2, ?_⟩
    simp [removeAllPolicies, hne, deleteManifest]
  · simpa [removeAllPolicies, hne, deleteManifest, ptValueAbsent] using habs.1
  · simpa [removeAllPolicies, hne, deleteManifest, ifeoAbsent] using habs.2
  · simp [removeAllPolicies, cleanLedger, loadManifest, deleteManifest]
  · intro v; rfl
  · intro q; exact ⟨rfl, rfl⟩
  · intro m; rfl
  · rfl

/-- Witness for C5 at a concrete one-entry ledger. -/
theorem removeAllPolicies_cleans_witness :
    (alookup (loadManifest ⟨[("app.exe", "C:\\app.exe")], some [("app.exe", "C:\\app.exe")],
        some [("c:\\app.exe", 1)], [("app.exe", 3)]⟩).1.appliedPolicies "app.exe"
      = some "C:\\app.exe") ∧
    ((removeAllPolicies ⟨[("app.exe", "C:\\app.exe")], some [("app.exe", "C:\\app.exe")],
        some [("c:\\app.exe", 1)], [("app.exe", 3)]⟩).1.appliedPolicies = [] ∧
     (removeAllPolicies ⟨[("app.exe", "C:\\app.exe")], some [("app.exe", "C:\\app.exe")],
        some [("c:\\app.exe", 1)], [("app.exe", 3)]⟩).1.manifest = none ∧
     (∃ tr₀, (removeAllPolicies ⟨[("app.exe", "C:\\app.exe")], some [("app.exe", "C:\\app.exe")],
        some [("c:\\app.exe", 1)], [("app.exe", 3)]⟩).2 = tr₀ ++ [LedgerOp.deleteManifestFile]) ∧
     ptValueAbsent (removeAllPolicies ⟨[("app.exe", "C:\\app.exe")], some [("app.exe", "C:\\app.exe")],
        some [("c:\\app.exe", 1)], [("app.exe", 3)]⟩).1 "C:\\app.exe" ∧
     ifeoAbsent (removeAllPolicies ⟨[("app.exe", "C:\\app.exe")], some [("app.exe", "C:\\app.exe")],
        some [("c:\\app.exe", 1)], [("app.exe", 3)]⟩).1 "app.exe" ∧
     removeAllPolicies cleanLedger = (cleanLedger, [LedgerOp.deleteManifestFile]) ∧
     (∀ v, (deleteValue [] v).2 = true) ∧
     (∀ q, (enablePowerThrottling cleanLedger q).2.1 = true ∧
           (enablePowerThrottling cleanLedger q).2.2 = []) ∧
     (∀ m, (removeIFEOPerfOptions cleanLedger m).2.1 = true) ∧
     (deleteManifest cleanLedger).2.1 = true) :=
  ⟨by decide, removeAllPolicies_cleans _ "app.exe" "C:\\app.exe" (by decide)⟩

/-! ## Engine core (engine_core.h / engine_core.cpp)

The shallow embedding below follows the event-driven engine.  Kernel handles
are booleans (`hasProcessHandle` models whether `processHandle` is non-null),
heap-allocated timer/wait callback contexts are numeric ids drawn from a
fresh-id counter, and `ULONGLONG` tick arithmetic uses explicit 64-bit
wrap-around helpers.  OS calls that the enforcement logic does not branch on
(`CreateTimerQueueTimer`, `DeleteTimerQueueTimer`, `UnregisterWaitEx`) are
modelled as succeeding; calls the logic does branch on (`OpenProcess`,
`IsEcoQoSEnabled`, `RegisterWaitForSingleObject`, liveness queries, name
resolution) are oracle parameters.  Logging and the atomic diagnostic
counters other than `totalViolations_` are omitted. -/

/-- 64-bit wrap-around modulus for `ULONGLONG` arithmetic. -/
def U64_MOD : Nat := 2 ^ 64

/-- Unsigned 64-bit subtraction (`a - b` on `ULONGLONG`). -/
def sub64 (a b : Nat) : Nat := (a % U64_MOD + (U64_MOD - b % U64_MOD)) % U64_MOD

/-- Unsigned 64-bit addition (`a + b` on `ULONGLONG`). -/
def add64 (a b : Nat) : Nat := (a + b) % U64_MOD

theorem sub64_eq (a b : Nat) (hb : b ≤ a) (ha : a < U64_MOD) : sub64 a b = a - b := by
  have hbM : b < U64_MOD := lt_of_le_of_lt hb ha
  unfold sub64
  rw [Nat.mod_eq_of_lt ha, Nat.mod_eq_of_lt hbM]
  have h1 : a + (U64_MOD - b) = U64_MOD + (a - b) := by omega
  rw [h1, Nat.add_mod_left, Nat.mod_eq_of_lt (by omega)]

/-- Timing and threshold constants (engine_core.h:469-501, types.h:99-101). -/
def DEFERRED_VERIFY_1 : Nat := 200
def DEFERRED_VERIFY_2 : Nat := 1000
def DEFERRED_VERIFY_FINAL : Nat := 3000
def PERSISTENT_ENFORCE_INTERVAL : Nat := 5000
def PERSISTENT_CLEAN_THRESHOLD : Nat := 60000
def ETW_BOOST_RATE_LIMIT : Nat := 1000
def VIOLATION_THRESHOLD : Nat := 3
def MAX_RETRY_COUNT : Nat := 5
def RETRY_BACKOFF_BASE_MS : Nat := 50
def ERROR_LOG_SUPPRESS_MS : Nat := 60000

/-- Windows error codes used by `HandleEnforceError`. -/
def ERROR_ACCESS_DENIED : Nat := 5
def ERROR_INVALID_HANDLE : Nat := 6
def ERROR_INVALID_PARAMETER : Nat := 87

/-- `GetCriticalProcesses` (types.h:238-246). -/
def criticalProcesses : List String :=
  ["ntoskrnl.exe", "smss.exe", "csrss.exe", "wininit.exe",
   "services.exe", "lsass.exe", "winlogon.exe", "svchost.exe",
   "explorer.exe", "dwm.exe", "ctfmon.exe", "unleaf_service.exe",
   "unleaf_manager.exe"]

/-- `IsCriticalProcess` (types.h:296-299). -/
def isCriticalProcess (name : String) : Bool :=
  criticalProcesses.contains (toLowerStr name)

/-- `ProcessPhase` (engine_core.h:25-29). -/
inductive ProcessPhase
  | AGGRESSIVE
  | STABLE
  | PERSISTENT
  deriving DecidableEq, Repr

/-- `EnforcementRequestType` (engine_core.h:32-38). -/
inductive EnforcementRequestType
  | ETW_PROCESS_START
  | ETW_THREAD_START
  | DEFERRED_VERIFICATION
  | PERSISTENT_ENFORCE
  | SAFETY_NET
  deriving DecidableEq, Repr

/-- `EnforcementRequest` (engine_core.h:41-49). -/
structure EnforcementRequest where
  pid : Nat
  type : EnforcementRequestType
  verifyStep : Nat
  deriving DecidableEq, Repr

/-- `TrackedProcess` (engine_core.h:140-188).  Handles become booleans;
timer handles and the owned callback contexts become optional ids. -/
structure TrackedProcess where
  pid : Nat
  parentPid : Nat
  name : String
  hasProcessHandle : Bool
  hasWaitHandle : Bool
  isChild : Bool
  phase : ProcessPhase
  phaseStartTime : Nat
  lastCheckTime : Nat
  lastPriorityCheck : Nat
  violationCount : Nat
  consecutiveFailures : Nat
  lastErrorCode : Nat
  nextRetryTime : Nat
  rootTargetPid : Nat
  inJobObject : Bool
  jobAssignmentFailed : Bool
  lastViolationTime : Nat
  lastEtwEnforceTime : Nat
  deferredTimer : Option Nat
  persistentTimer : Option Nat
  persistentTimerContext : Option Nat
  deferredTimerContext : Option Nat
  deriving DecidableEq, Repr

/-- Engine-side state touched by the operations under verification:
the tracked-process table, the wait-callback context map, the error-log
suppression map, the lowered target-name set, the fresh context-id counter,
and whether the timer queue exists. -/
structure EngineState where
  tracked : List (Nat × TrackedProcess)
  waitContexts : List (Nat × Nat)
  errorLogSuppression : List ((Nat × Nat) × Nat)
  targetSet : List String
  nextCtx : Nat
  hasTimerQueue : Bool
  totalViolations : Nat
  deriving DecidableEq, Repr

/-- Externally visible engine actions: power-state override pulses, timer
creations and context frees (`delete` of a callback context). -/
inductive EngineAction
  | pulseEnforce (pid : Nat)
  | scheduleDeferred (pid step delayMs : Nat)
  | startPersistent (pid dueMs periodMs : Nat)
  | freeContext (ctx : Nat)
  deriving DecidableEq, Repr

/-- `IsTargetName` (engine_core.cpp:1926-1929). -/
def isTargetName (s : EngineState) (name : String) : Bool :=
  s.targetSet.contains (toLowerStr name)

/-- Update the table entry for a pid in place, if present. -/
def modifyTracked (s : EngineState) (pid : Nat) (f : TrackedProcess → TrackedProcess) :
    EngineState :=
  match alookup s.tracked pid with
  | none => s
  | some tp => { s with tracked := ainsert s.tracked pid (f tp) }

/-- `ScheduleDeferredVerification` (engine_core.cpp:807-844): step 1 fires
after 200ms, step 2 after 800ms more, step 3 after 2000ms more; other steps
do nothing.  The created one-shot timer and its context get a fresh id
(`CreateTimerQueueTimer` modelled as succeeding). -/
def scheduleDeferredVerification (s : EngineState) (pid step : Nat) :
    EngineState × List EngineAction :=
  if !s.hasTimerQueue then (s, [])
  else
    match (if step = 1 then some DEFERRED_VERIFY_1
           else if step = 2 then some (DEFERRED_VERIFY_2 - DEFERRED_VERIFY_1)
           else if step = 3 then some (DEFERRED_VERIFY_FINAL - DEFERRED_VERIFY_2)
           else none) with
    | none => (s, [])
    | some delayMs =>
        match alookup s.tracked pid with
        | none => (s, [])
        | some tp =>
            let ctx := s.nextCtx
            let tp' := { tp with deferredTimer := some ctx, deferredTimerContext := some ctx }
            ({ s with tracked := ainsert s.tracked pid tp', nextCtx := ctx + 1 },
             [.scheduleDeferred pid step delayMs])

/-- `CancelProcessTimers` (engine_core.cpp:847-870): delete each live timer,
free its context, and null both fields. -/
def cancelProcessTimers (hasTimerQueue : Bool) (tp : TrackedProcess) :
    TrackedProcess × List EngineAction :=
  let r1 :=
    if tp.deferredTimer.isSome && hasTimerQueue then
      ({ tp with deferredTimer := none, deferredTimerContext := none },
       ((tp.deferredTimerContext.map (fun c => [EngineAction.freeContext c])).getD []))
    else (tp, ([] : List EngineAction))
  let r2 :=
    if r1.1.persistentTimer.isSome && hasTimerQueue then
      ({ r1.1 with persistentTimer := none, persistentTimerContext := none },
       ((r1.1.persistentTimerContext.map (fun c => [EngineAction.freeContext c])).getD []))
    else (r1.1, ([] : List EngineAction))
  (r2.1, r1.2 ++ r2.2)

/-- `StartPersistentTimer` (engine_core.cpp:873-909): cancel any existing
persistent timer (freeing its context), then create the 5s recurring timer
with a fresh context id. -/
def startPersistentTimer (s : EngineState) (pid : Nat) : EngineState × List EngineAction :=
  if !s.hasTimerQueue then (s, [])
  else
    match alookup s.tracked pid with
    | none => (s, [])
    | some tp =>
        let r1 :=
          if tp.persistentTimer.isSome then
            ({ tp with persistentTimer := none, persistentTimerContext := none },
             ((tp.persistentTimerContext.map (fun c => [EngineAction.freeContext c])).getD []))
          else (tp, ([] : List EngineAction))
        let ctx := s.nextCtx
        let tp2 := { r1.1 with persistentTimer := some ctx, persistentTimerContext := some ctx }
        ({ s with tracked := ainsert s.tracked pid tp2, nextCtx := ctx + 1 },
         r1.2 ++ [.startPersistent pid PERSISTENT_ENFORCE_INTERVAL PERSISTENT_ENFORCE_INTERVAL])

/-- `DispatchEnforcementRequest` (engine_core.cpp:554-727).  `ecoQoSOn` is
the environment's answer to `IsEcoQoSEnabled` for this check; `now` is
`GetTickCount64()` at dispatch time. -/
def dispatchEnforcementRequest (s : EngineState) (req : EnforcementRequest)
    (now : Nat) (ecoQoSOn : Bool) : EngineState × List EngineAction :=
  match alookup s.tracked req.pid with
  | none => (s, [])
  | some tp =>
    if !tp.hasProcessHandle then (s, [])
    else
      match req.type with
      | .ETW_THREAD_START =>
          if tp.phase = ProcessPhase.STABLE then
            if ecoQoSOn then
              let tp1 := { tp with violationCount := tp.violationCount + 1,
                                   lastViolationTime := now }
              let s1 := { s with tracked := ainsert s.tracked req.pid tp1,
                                 totalViolations := s.totalViolations + 1 }
              if tp1.violationCount ≥ VIOLATION_THRESHOLD then
                let s2 := modifyTracked s1 req.pid
                  (fun t => { t with phase := ProcessPhase.PERSISTENT })
                let r := startPersistentTimer s2 req.pid
                (modifyTracked r.1 req.pid (fun t => { t with lastCheckTime := now }),
                 EngineAction.pulseEnforce req.pid :: r.2)
              else
                let s2 := modifyTracked s1 req.pid
                  (fun t => { t with phase := ProcessPhase.AGGRESSIVE, phaseStartTime := now })
                let r := scheduleDeferredVerification s2 req.pid 1
                (modifyTracked r.1 req.pid (fun t => { t with lastCheckTime := now }),
                 EngineAction.pulseEnforce req.pid :: r.2)
            else
              (modifyTracked s req.pid (fun t => { t with lastCheckTime := now }), [])
          else if tp.phase = ProcessPhase.PERSISTENT then
            if sub64 now tp.lastEtwEnforceTime ≥ ETW_BOOST_RATE_LIMIT then
              let base :=
                if ecoQoSOn then
                  (modifyTracked s req.pid (fun t => { t with lastViolationTime := now }),
                   [EngineAction.pulseEnforce req.pid])
                else (s, ([] : List EngineAction))
              (modifyTracked base.1 req.pid
                 (fun t => { t with lastEtwEnforceTime := now, lastCheckTime := now }),
               base.2)
            else (s, [])
          else (s, [])
      | .DEFERRED_VERIFICATION =>
          if tp.phase = ProcessPhase.AGGRESSIVE then
            let freed := (tp.deferredTimerContext.map
              (fun c => [EngineAction.freeContext c])).getD []
            let tp0 := { tp with deferredTimerContext := none, deferredTimer := none }
            if !ecoQoSOn then
              if req.verifyStep ≥ 3 then
                let r := cancelProcessTimers s.hasTimerQueue
                  { tp0 with phase := ProcessPhase.STABLE, phaseStartTime := now }
                let tpF := { r.1 with lastCheckTime := now }
                ({ s with tracked := ainsert s.tracked req.pid tpF }, freed ++ r.2)
              else
                let s1 := { s with tracked := ainsert s.tracked req.pid tp0 }
                let r := scheduleDeferredVerification s1 req.pid (req.verifyStep + 1)
                (modifyTracked r.1 req.pid (fun t => { t with lastCheckTime := now }),
                 freed ++ r.2)
            else
              let tp1 := { tp0 with violationCount := tp0.violationCount + 1 }
              let s1 := { s with tracked := ainsert s.tracked req.pid tp1,
                                 totalViolations := s.totalViolations + 1 }
              if tp1.violationCount ≥ VIOLATION_THRESHOLD then
                let r2 := cancelProcessTimers s1.hasTimerQueue
                  { tp1 with phase := ProcessPhase.PERSISTENT }
                let s2 := { s1 with tracked := ainsert s1.tracked req.pid r2.1 }
                let r3 := startPersistentTimer s2 req.pid
                (modifyTracked r3.1 req.pid (fun t => { t with lastCheckTime := now }),
                 freed ++ EngineAction.pulseEnforce req.pid :: (r2.2 ++ r3.2))
              else
                let r2 := cancelProcessTimers s1.hasTimerQueue
                  { tp1 with phaseStartTime := now }
                let s2 := { s1 with tracked := ainsert s1.tracked req.pid r2.1 }
                let r3 := scheduleDeferredVerification s2 req.pid 1
                (modifyTracked r3.1 req.pid (fun t => { t with lastCheckTime := now }),
                 freed ++ EngineAction.pulseEnforce req.pid :: (r2.2 ++ r3.2))
          else (s, [])
      | .PERSISTENT_ENFORCE =>
          if tp.phase = ProcessPhase.PERSISTENT then
            let base : TrackedProcess × List EngineAction :=
              if ecoQoSOn then
                ({ tp with lastViolationTime := now }, [EngineAction.pulseEnforce req.pid])
              else (tp, [])
            let tp1 : TrackedProcess := { base.1 with lastCheckTime := now }
            if !ecoQoSOn then
              let timeSince : Nat :=
                if 0 < tp1.lastViolationTime then sub64 now tp1.lastViolationTime
                else sub64 now tp1.phaseStartTime
              if timeSince ≥ PERSISTENT_CLEAN_THRESHOLD then
                let r := cancelProcessTimers s.hasTimerQueue
                  { tp1 with phase := ProcessPhase.STABLE, phaseStartTime := now }
                ({ s with tracked := ainsert s.tracked req.pid r.1 }, base.2 ++ r.2)
              else
                ({ s with tracked := ainsert s.tracked req.pid tp1 }, base.2)
            else
              ({ s with tracked := ainsert s.tracked req.pid tp1 }, base.2)
          else (s, [])
      | .SAFETY_NET =>
          if ecoQoSOn && tp.phase = ProcessPhase.STABLE then
            let tp1 := { tp with violationCount := tp.violationCount + 1,
                                 lastViolationTime := now }
            let s1 := { s with tracked := ainsert s.tracked req.pid tp1,
                               totalViolations := s.totalViolations + 1 }
            if tp1.violationCount ≥ VIOLATION_THRESHOLD then
              let s2 := modifyTracked s1 req.pid
                (fun t => { t with phase := ProcessPhase.PERSISTENT })
              let r := startPersistentTimer s2 req.pid
              (modifyTracked r.1 req.pid (fun t => { t with lastCheckTime := now }),
               EngineAction.pulseEnforce req.pid :: r.2)
            else
              let s2 := modifyTracked s1 req.pid
                (fun t => { t with phase := ProcessPhase.AGGRESSIVE, phaseStartTime := now })
              let r := scheduleDeferredVerification s2 req.pid 1
              (modifyTracked r.1 req.pid (fun t => { t with lastCheckTime := now }),
               EngineAction.pulseEnforce req.pid :: r.2)
          else
            (modifyTracked s req.pid (fun t => { t with lastCheckTime := now }), [])
      | .ETW_PROCESS_START => (s, [])

/-- `HandleEnforceError` (engine_core.cpp:1296-1371).  `processAlive` is the
result of the independent liveness re-check (`GetExitCodeProcess` returning
`STILL_ACTIVE` on a non-null handle) performed before any retry decision;
`consecutiveFailures` is a `uint8_t` and wraps at 256. -/
def handleEnforceError (s : EngineState) (pid error : Nat) (processAlive : Bool)
    (now : Nat) : EngineState :=
  match alookup s.tracked pid with
  | none => s
  | some tp =>
      let tp1 := { tp with consecutiveFailures := (tp.consecutiveFailures + 1) % 256,
                           lastErrorCode := error }
      let supp :=
        match alookup s.errorLogSuppression (pid, error) with
        | some t =>
            if sub64 now t < ERROR_LOG_SUPPRESS_MS then s.errorLogSuppression
            else ainsert s.errorLogSuppression (pid, error) now
        | none => ainsert s.errorLogSuppression (pid, error) now
      let tpNoHandle := { tp1 with hasProcessHandle := false }
      if !processAlive then
        { s with tracked := ainsert s.tracked pid tpNoHandle, errorLogSuppression := supp }
      else if error = ERROR_ACCESS_DENIED then
        if tp1.consecutiveFailures ≤ 2 then
          let tpR := { tp1 with nextRetryTime := add64 now RETRY_BACKOFF_BASE_MS }
          { s with tracked := ainsert s.tracked pid tpR, errorLogSuppression := supp }
        else
          { s with tracked := ainsert s.tracked pid tp1, errorLogSuppression := supp }
      else if error = ERROR_INVALID_HANDLE then
        { s with tracked := ainsert s.tracked pid tpNoHandle, errorLogSuppression := supp }
      else if error = ERROR_INVALID_PARAMETER then
        { s with tracked := ainsert s.tracked pid tpNoHandle, errorLogSuppression := supp }
      else
        if tp1.consecutiveFailures ≤ MAX_RETRY_COUNT then
          let backoff :=
            (RETRY_BACKOFF_BASE_MS * (2 ^ (tp1.consecutiveFailures - 1) % 2 ^ 32)) % 2 ^ 32
          let tpR := { tp1 with nextRetryTime := add64 now backoff }
          { s with tracked := ainsert s.tracked pid tpR, errorLogSuppression := supp }
        else
          { s with tracked := ainsert s.tracked pid tp1, errorLogSuppression := supp }

/-- `RemoveTrackedProcess` (engine_core.cpp:1850-1919): cancel both timers
recovering their contexts, null the fields, erase the pid from the table and
from `waitContexts_`, drop the pid's error-suppression entries, then free the
recovered contexts (wait context, then persistent, then deferred).  Wait
unregistration blocks until the callback completes (`UnregisterWaitEx`,
modelled as succeeding). -/
def removeTrackedProcess (s : EngineState) (pid : Nat) : EngineState × List EngineAction :=
  match alookup s.tracked pid with
  | some tp =>
      let freedDeferred :=
        if tp.deferredTimer.isSome && s.hasTimerQueue then
          (tp.deferredTimerContext.map (fun c => [EngineAction.freeContext c])).getD []
        else []
      let freedPersistent :=
        if tp.persistentTimer.isSome && s.hasTimerQueue then
          (tp.persistentTimerContext.map (fun c => [EngineAction.freeContext c])).getD []
        else []
      let freedWait :=
        ((alookup s.waitContexts pid).map (fun c => [EngineAction.freeContext c])).getD []
      ({ s with tracked := aerase s.tracked pid,
                waitContexts := aerase s.waitContexts pid,
                errorLogSuppression := s.errorLogSuppression.filter (fun e => e.1.1 ≠ pid) },
       freedWait ++ freedPersistent ++ freedDeferred)
  | none =>
      let freedWait :=
        ((alookup s.waitContexts pid).map (fun c => [EngineAction.freeContext c])).getD []
      ({ s with waitContexts := aerase s.waitContexts pid,
                errorLogSuppression := s.errorLogSuppression.filter (fun e => e.1.1 ≠ pid) },
       freedWait)

/-- `CleanupRemovedTargets` (engine_core.cpp:1949-2011): a tracked root is
collected for removal when its lowered name left the target set; a tracked
child is collected when its parent pid is no longer in the table and its own
name is not itself a target.  Decisions are taken against the pre-removal
table, then each collected pid is removed.  (The `validRootPids` set the
source builds in its first pass is never read afterwards.) -/
def cleanupRemovedTargets (s : EngineState) : EngineState :=
  let localTargets := s.targetSet
  let toRemove := (s.tracked.filter (fun e =>
      if e.2.isChild then
        !(alookup s.tracked e.2.parentPid).isSome && !(isTargetName s e.2.name)
      else
        !(localTargets.contains (toLowerStr e.2.name)))).map (fun e => e.1)
  toRemove.foldl (fun st pid => (removeTrackedProcess st pid).1) s

/-- A freshly tracked process (`ApplyOptimization`, engine_core.cpp:1770-1791). -/
def mkTrackedProcess (pid parentPid : Nat) (name : String) (isChild : Bool)
    (rootPid : Nat) (inJob jobFailed waitOk : Bool) (now : Nat) : TrackedProcess :=
  { pid := pid, parentPid := parentPid, name := name,
    hasProcessHandle := true, hasWaitHandle := waitOk, isChild := isChild,
    phase := ProcessPhase.AGGRESSIVE, phaseStartTime := now, lastCheckTime := now,
    lastPriorityCheck := now, violationCount := 0,
    consecutiveFailures := 0, lastErrorCode := 0, nextRetryTime := 0,
    rootTargetPid := rootPid, inJobObject := inJob, jobAssignmentFailed := jobFailed,
    lastViolationTime := 0, lastEtwEnforceTime := 0,
    deferredTimer := none, persistentTimer := none,
    persistentTimerContext := none, deferredTimerContext := none }

/-- `ApplyOptimization` (engine_core.cpp:1704-1830): skip if already tracked,
skip critical processes, skip if `OpenProcess` fails; otherwise apply the
registry policy and first pulse (ledger/OS side effects, outside this state),
insert the tracked entry (registering the exit-wait context when the
`SYNCHRONIZE` open and wait registration succeed) and schedule deferred
verification step 1. -/
def applyOptimization (s : EngineState) (pid : Nat) (name : String) (isChild : Bool)
    (parentPid : Nat) (openOk waitOk jobOk : Bool) (now : Nat) : EngineState :=
  if (alookup s.tracked pid).isSome then s
  else if isCriticalProcess name then s
  else if !openOk then s
  else
    let rootPid := if isChild then parentPid else pid
    let jobFailed := !isChild && !jobOk
    let tp := mkTrackedProcess pid parentPid name isChild rootPid jobOk jobFailed waitOk now
    let s1 := { s with
      tracked := ainsert s.tracked pid tp,
      waitContexts := if waitOk then ainsert s.waitContexts pid s.nextCtx else s.waitContexts,
      nextCtx := if waitOk then s.nextCtx + 1 else s.nextCtx }
    (scheduleDeferredVerification s1 pid 1).1

/-- `OnProcessStart` (engine_core.cpp:398-416). -/
def onProcessStart (s : EngineState) (pid parentPid : Nat) (name : String)
    (stopRequested openOk waitOk jobOk : Bool) (now : Nat) : EngineState :=
  if stopRequested then s
  else if isCriticalProcess name then s
  else if (alookup s.tracked parentPid).isSome then
    applyOptimization s pid name true parentPid openOk waitOk jobOk now
  else if isTargetName s name then
    applyOptimization s pid name false 0 openOk waitOk jobOk now
  else s

/-- One member pid reported for a job object during `RefreshJobObjectPids`:
its resolved image name (`none` when `OpenProcess`/name query failed) and the
`ApplyOptimization` environment oracles. -/
structure JobScanEntry where
  pid : Nat
  rootPid : Nat
  resolvedName : Option String
  openOk : Bool
  waitOk : Bool
  jobOk : Bool
  deriving DecidableEq, Repr

/-- `RefreshJobObjectPids` (engine_core.cpp:1510-1584), pass 2: each
not-yet-tracked member pid with a nonempty resolved name that is not a
critical process is enforced as a child of the job's root. -/
def refreshJobObjectPids (s : EngineState) (entries : List JobScanEntry) (now : Nat) :
    EngineState :=
  entries.foldl (fun st e =>
    if (alookup st.tracked e.pid).isSome then st
    else
      match e.resolvedName with
      | none => st
      | some name =>
          if name = "" then st
          else if !isCriticalProcess name then
            applyOptimization st e.pid name true e.rootPid e.openOk e.waitOk e.jobOk now
          else st) s

/-- One process-snapshot row (`PROCESSENTRY32W`) with `ApplyOptimization`
environment oracles. -/
structure SnapEntry where
  pid : Nat
  parentPid : Nat
  name : String
  openOk : Bool
  waitOk : Bool
  jobOk : Bool
  deriving DecidableEq, Repr

/-- `InitialScanForDegradedMode` (engine_core.cpp:1605-1640). -/
def initialScanForDegradedMode (s : EngineState) (snapshot : List SnapEntry) (now : Nat) :
    EngineState :=
  snapshot.foldl (fun st e =>
    if (alookup st.tracked e.pid).isSome then st
    else if isCriticalProcess e.name then st
    else
      let isTarget := st.targetSet.contains (toLowerStr e.name)
      let isChild := (alookup st.tracked e.parentPid).isSome
      if isTarget || isChild then
        applyOptimization st e.pid e.name isChild e.parentPid e.openOk e.waitOk e.jobOk now
      else st) s

/-- `collectDescendants` inside `InitialScan` (engine_core.cpp:1666-1674):
recursive walk over the snapshot's (pid, name, parentPid) map, skipping
critical names.  The source recursion terminates on the acyclic parent
relation of a real snapshot; fuel bounds it here. -/
def collectDescendants (processMap : List (Nat × String × Nat)) :
    Nat → Nat → List (Nat × String)
  | 0, _ => []
  | Nat.succ fuel, parentPid =>
      (processMap.filter
        (fun e => e.2.2 = parentPid && !isCriticalProcess e.2.1)).foldl
        (fun acc e => acc ++ (e.1, e.2.1) :: collectDescendants processMap fuel e.1) []

/-- `InitialScan` (engine_core.cpp:1642-1702): optimize every snapshot row
whose lowered name is a target (unless critical or tracked), then optimize
its not-yet-tracked descendants as children of that root. -/
def initialScan (s : EngineState) (snapshot : List SnapEntry) (now : Nat) : EngineState :=
  let processMap := snapshot.map (fun e => (e.pid, e.name, e.parentPid))
  snapshot.foldl (fun st e =>
    if st.targetSet.contains (toLowerStr e.name) then
      let st1 :=
        if !isCriticalProcess e.name && !(alookup st.tracked e.pid).isSome then
          applyOptimization st e.pid e.name false 0 e.openOk e.waitOk e.jobOk now
        else st
      (collectDescendants processMap processMap.length e.pid).foldl
        (fun st2 c =>
          if !(alookup st2.tracked c.1).isSome then
            match snapshot.find? (fun se => se.pid = c.1) with
            | none => st2
            | some se =>
                applyOptimization st2 c.1 c.2 true e.pid se.openOk se.waitOk se.jobOk now
          else st2) st1
    else st) s

/-- `RefreshTargetSet` (engine_core.cpp:1937-1947): rebuild the target set
from the enabled configured targets, lowered. -/
def refreshTargetSet (s : EngineState) (targets : List (String × Bool)) : EngineState :=
  { s with targetSet :=
      (targets.filter (fun t => t.2)).map (fun t => toLowerStr t.1) }

/-! ## Engine control loop (engine_core.cpp:449-521)

The loop is projected onto the state relevant to pending exit-notification
removals: the `pendingRemovalPids_` queue (fed by `OnProcessExit` callbacks)
and the ordered log of pids passed to `RemoveTrackedProcess`.  Config-change,
safety-net and enforcement-request handling and the periodic maintenance do
not touch the pending-removal queue.  Each iteration supplies the value of
the `stopRequested_` flag at the loop head, the pids queued by exit callbacks
before the wakeup, and the `WaitForMultipleObjects` outcome. -/

/-- Outcomes of one `WaitForMultipleObjects` call, per the five wait objects
plus the `WAIT_FAILED` error return. -/
inductive WaitResult
  | stopSignal
  | configChange
  | safetyNet
  | enforcementRequest
  | processExit
  | waitFailed
  deriving DecidableEq, Repr

/-- One wakeup cycle's environment inputs. -/
structure LoopIter where
  stopRequested : Bool
  arrivals : List Nat
  wait : WaitResult
  deriving DecidableEq, Repr

/-- Control-loop state projection. -/
structure LoopState where
  pendingRemovalPids : List Nat
  removedLog : List Nat
  deriving DecidableEq, Repr

/-- `ProcessPendingRemovals` (engine_core.cpp:790-804): drain the queue,
passing each pid to `RemoveTrackedProcess` in order. -/
def processPendingRemovals (st : LoopState) : LoopState :=
  { pendingRemovalPids := [],
    removedLog := st.removedLog ++ st.pendingRemovalPids }

/-- How the loop exited. -/
inductive LoopExit
  | stopEvent
  | stopFlag
  | waitFailure
  deriving DecidableEq, Repr

/-- `EngineControlLoop` over a finite schedule of wakeups.  It exits when the
`stopRequested_` flag is set at the loop head, when the wait returns the stop
event, or when the wait itself fails; on every exit path it runs a final
`ProcessPendingRemovals` before returning.  `none` means the schedule ended
with the loop still blocked in the wait. -/
def engineControlLoop : List LoopIter → LoopState → Option (LoopState × LoopExit)
  | [], _ => none
  | it :: rest, st =>
      if it.stopRequested then
        some (processPendingRemovals st, LoopExit.stopFlag)
      else
        let st1 := { st with pendingRemovalPids := st.pendingRemovalPids ++ it.arrivals }
        match it.wait with
        | WaitResult.stopSignal => some (processPendingRemovals st1, LoopExit.stopEvent)
        | WaitResult.waitFailed => some (processPendingRemovals st1, LoopExit.waitFailure)
        | WaitResult.processExit => engineControlLoop rest (processPendingRemovals st1)
        | _ => engineControlLoop rest st1

/-! ## C7: self-healing error classification -/

theorem backoff_small (n : Nat) (h : n ≤ MAX_RETRY_COUNT) :
    RETRY_BACKOFF_BASE_MS * 2 ^ (n - 1) % 4294967296
      = RETRY_BACKOFF_BASE_MS * 2 ^ (n - 1) := by
  have h1 : n - 1 ≤ 4 := by
    simp [MAX_RETRY_COUNT] at h
    omega
  have h2 : (2:Nat) ^ (n - 1) ≤ 2 ^ 4 := Nat.pow_le_pow_right (by norm_num) h1
  refine Nat.mod_eq_of_lt ?_
  calc RETRY_BACKOFF_BASE_MS * 2 ^ (n - 1) ≤ RETRY_BACKOFF_BASE_MS * 2 ^ 4 :=
        Nat.mul_le_mul_left _ h2
    _ < 4294967296 := by norm_num [RETRY_BACKOFF_BASE_MS]

/-- C7: on any override-application failure the handler first uses the
independent exit-code liveness re-check: a known-dead process gets no retry
scheduling and its handle is released; for a live process, access-denied
schedules a retry only while the consecutive-failure count is at most 2,
invalid-handle and invalid-parameter release the handle and schedule no
retry, and every other error schedules an exponential-backoff retry
(base 50ms doubled per failure) only while the count is at most
`MAX_RETRY_COUNT` = 5. -/
theorem handleEnforceError_classification
    (s : EngineState) (pid error now : Nat) (alive : Bool) (tp : TrackedProcess)
    (htp : alookup s.tracked pid = some tp) :
    ∃ tp', alookup (handleEnforceError s pid error alive now).tracked pid = some tp' ∧
      tp'.consecutiveFailures = (tp.consecutiveFailures + 1) % 256 ∧
      tp'.lastErrorCode = error ∧
      (alive = false →
        tp'.hasProcessHandle = false ∧ tp'.nextRetryTime = tp.nextRetryTime) ∧
      (alive = true ∧ error = ERROR_ACCESS_DENIED →
        (tp'.consecutiveFailures ≤ 2 →
           tp'.nextRetryTime = add64 now RETRY_BACKOFF_BASE_MS) ∧
        (¬ tp'.consecutiveFailures ≤ 2 →
           tp'.nextRetryTime = tp.nextRetryTime ∧
           tp'.hasProcessHandle = tp.hasProcessHandle)) ∧
      (alive = true ∧ (error = ERROR_INVALID_HANDLE ∨ error = ERROR_INVALID_PARAMETER) →
        tp'.hasProcessHandle = false ∧ tp'.nextRetryTime = tp.nextRetryTime) ∧
      (alive = true ∧ error ≠ ERROR_ACCESS_DENIED ∧ error ≠ ERROR_INVALID_HANDLE ∧
          error ≠ ERROR_INVALID_PARAMETER →
        (tp'.consecutiveFailures ≤ MAX_RETRY_COUNT →
           tp'.nextRetryTime =
             add64 now (RETRY_BACKOFF_BASE_MS * 2 ^ (tp'.consecutiveFailures - 1))) ∧
        (¬ tp'.consecutiveFailures ≤ MAX_RETRY_COUNT →
           tp'.nextRetryTime = tp.nextRetryTime ∧
           tp'.hasProcessHandle = tp.hasProcessHandle)) := by
  unfold handleEnforceError
  rw [htp]
  by_cases halive : alive = true
  · subst halive
    by_cases h5 : error = ERROR_ACCESS_DENIED
    · subst h5
      by_cases hc : (tp.consecutiveFailures + 1) % 256 ≤ 2
      · refine ⟨_, by simp [hc, alookup_ainsert_self, ERROR_ACCESS_DENIED,
          ERROR_INVALID_HANDLE, ERROR_INVALID_PARAMETER] <;> rfl, ?_⟩
        simp [hc, ERROR_ACCESS_DENIED, ERROR_INVALID_HANDLE, ERROR_INVALID_PARAMETER]
      · refine ⟨_, by simp [hc, alookup_ainsert_self, ERROR_ACCESS_DENIED,
          ERROR_INVALID_HANDLE, ERROR_INVALID_PARAMETER] <;> rfl, ?_⟩
        simp [hc, ERROR_ACCESS_DENIED, ERROR_INVALID_HANDLE, ERROR_INVALID_PARAMETER]
    · by_cases h6 : error = ERROR_INVALID_HANDLE
      · subst h6
        refine ⟨_, by simp [h5, alookup_ainsert_self] <;> rfl, ?_⟩
        simp [h5, ERROR_ACCESS_DENIED, ERROR_INVALID_HANDLE, ERROR_INVALID_PARAMETER]
      · by_cases h87 : error = ERROR_INVALID_PARAMETER
        · subst h87
          refine ⟨_, by simp [h5, h6, alookup_ainsert_self] <;> rfl, ?_⟩
          simp [h5, h6, ERROR_ACCESS_DENIED, ERROR_INVALID_HANDLE, ERROR_INVALID_PARAMETER]
        · by_cases hc : (tp.consecutiveFailures + 1) % 256 ≤ MAX_RETRY_COUNT
          · refine ⟨_, by simp [h5, h6, h87, hc, alookup_ainsert_self] <;> rfl, ?_⟩
            refine ⟨rfl, rfl, by simp, by simp [h5], by simp [h6, h87], ?_⟩
            intro _
            refine ⟨fun _ => ?_, fun hcon => absurd hc hcon⟩
            simp [backoff_small _ hc]
          · refine ⟨_, by simp [h5, h6, h87, hc, alookup_ainsert_self] <;> rfl, ?_⟩
            refine ⟨rfl, rfl, by simp, by simp [h5], by simp [h6, h87], ?_⟩
            intro _
            exact ⟨fun hcon => absurd hcon hc, fun _ => ⟨rfl, rfl⟩⟩
  · have halive' : alive = false := by
      cases alive
      · rfl
      · exact absurd rfl halive
    subst halive'
    refine ⟨_, by simp [alookup_ainsert_self] <;> rfl, ?_⟩
    simp

/-- A concrete tracked process for witnesses. -/
def c7tp : TrackedProcess := mkTrackedProcess 10 1 "app.exe" false 10 true false true 0

/-- A concrete engine state tracking `c7tp` under pid 10. -/
def c7state : EngineState :=
  { tracked := [(10, c7tp)], waitContexts := [(10, 0)], errorLogSuppression := [],
    targetSet := ["app.exe"], nextCtx := 1, hasTimerQueue := true, totalViolations := 0 }

/-- Witness for C7 at a concrete live process and an unclassified error code. -/
theorem handleEnforceError_classification_witness :
    (alookup c7state.tracked 10 = some c7tp) ∧
    (∃ tp', alookup (handleEnforceError c7state 10 0 true 100).tracked 10 = some tp' ∧
      tp'.consecutiveFailures = (c7tp.consecutiveFailures + 1) % 256 ∧
      tp'.lastErrorCode = 0 ∧
      (true = false →
        tp'.hasProcessHandle = false ∧ tp'.nextRetryTime = c7tp.nextRetryTime) ∧
      (true = true ∧ 0 = ERROR_ACCESS_DENIED →
        (tp'.consecutiveFailures ≤ 2 →
           tp'.nextRetryTime = add64 100 RETRY_BACKOFF_BASE_MS) ∧
        (¬ tp'.consecutiveFailures ≤ 2 →
           tp'.nextRetryTime = c7tp.nextRetryTime ∧
           tp'.hasProcessHandle = c7tp.hasProcessHandle)) ∧
      (true = true ∧ (0 = ERROR_INVALID_HANDLE ∨ 0 = ERROR_INVALID_PARAMETER) →
        tp'.hasProcessHandle = false ∧ tp'.nextRetryTime = c7tp.nextRetryTime) ∧
      (true = true ∧ 0 ≠ ERROR_ACCESS_DENIED ∧ 0 ≠ ERROR_INVALID_HANDLE ∧
          0 ≠ ERROR_INVALID_PARAMETER →
        (tp'.consecutiveFailures ≤ MAX_RETRY_COUNT →
           tp'.nextRetryTime =
             add64 100 (RETRY_BACKOFF_BASE_MS * 2 ^ (tp'.consecutiveFailures - 1))) ∧
        (¬ tp'.consecutiveFailures ≤ MAX_RETRY_COUNT →
           tp'.nextRetryTime = c7tp.nextRetryTime ∧
           tp'.hasProcessHandle = c7tp.hasProcessHandle))) :=
  ⟨rfl, handleEnforceError_classification c7state 10 0 100 true c7tp rfl⟩

/-! ## C3: Persistent phase returns to Stable after 60 clean seconds -/

theorem cancelProcessTimers_fields (tp : TrackedProcess) :
    (cancelProcessTimers true tp).1.persistentTimer = none ∧
    (cancelProcessTimers true tp).1.deferredTimer = none ∧
    (cancelProcessTimers true tp).1.persistentTimerContext
      = (if tp.persistentTimer.isSome then none else tp.persistentTimerContext) ∧
    (cancelProcessTimers true tp).1.deferredTimerContext
      = (if tp.deferredTimer.isSome then none else tp.deferredTimerContext) ∧
    (cancelProcessTimers true tp).1.phase = tp.phase ∧
    (cancelProcessTimers true tp).1.hasProcessHandle = tp.hasProcessHandle ∧
    (cancelProcessTimers true tp).1.name = tp.name ∧
    (cancelProcessTimers true tp).1.violationCount = tp.violationCount ∧
    (cancelProcessTimers true tp).1.phaseStartTime = tp.phaseStartTime := by
  unfold cancelProcessTimers
  cases hd : tp.deferredTimer <;> cases hp : tp.persistentTimer <;> simp [hd, hp]

theorem modifyTracked_lookup (s : EngineState) (pid : Nat)
    (f : TrackedProcess → TrackedProcess) (tp : TrackedProcess)
    (htp : alookup s.tracked pid = some tp) :
    alookup (modifyTracked s pid f).tracked pid = some (f tp) := by
  unfold modifyTracked
  rw [htp]
  exact alookup_ainsert_self _ _ _

theorem startPersistentTimer_lookup (s : EngineState) (pid : Nat) (tp : TrackedProcess)
    (hq : s.hasTimerQueue = true)
    (htp : alookup s.tracked pid = some tp) :
    alookup (startPersistentTimer s pid).1.tracked pid
      = some { tp with persistentTimer := some s.nextCtx,
                       persistentTimerContext := some s.nextCtx } ∧
    EngineAction.startPersistent pid PERSISTENT_ENFORCE_INTERVAL PERSISTENT_ENFORCE_INTERVAL
      ∈ (startPersistentTimer s pid).2 := by
  unfold startPersistentTimer
  cases hp : tp.persistentTimer <;> simp [hq, htp, hp, alookup_ainsert_self]

theorem scheduleDeferredVerification_spec (s : EngineState) (pid step delay : Nat)
    (tp : TrackedProcess)
    (hq : s.hasTimerQueue = true)
    (htp : alookup s.tracked pid = some tp)
    (hdelay : (step = 1 ∧ delay = DEFERRED_VERIFY_1) ∨
              (step = 2 ∧ delay = DEFERRED_VERIFY_2 - DEFERRED_VERIFY_1) ∨
              (step = 3 ∧ delay = DEFERRED_VERIFY_FINAL - DEFERRED_VERIFY_2)) :
    alookup (scheduleDeferredVerification s pid step).1.tracked pid
      = some { tp with deferredTimer := some s.nextCtx,
                       deferredTimerContext := some s.nextCtx } ∧
    (scheduleDeferredVerification s pid step).2
      = [EngineAction.scheduleDeferred pid step delay] := by
  rcases hdelay with ⟨h1, h2⟩ | ⟨h1, h2⟩ | ⟨h1, h2⟩ <;> subst h1 <;> subst h2 <;>
    (unfold scheduleDeferredVerification
     simp [hq, htp, alookup_ainsert_self, DEFERRED_VERIFY_1, DEFERRED_VERIFY_2,
           DEFERRED_VERIFY_FINAL])

/-- The tracked record after a clean persistent tick past the 60s threshold. -/
def stableAfterTick (tp : TrackedProcess) (now : Nat) : TrackedProcess :=
  let tp1 : TrackedProcess :=
    { tp with lastCheckTime := now, phase := ProcessPhase.STABLE, phaseStartTime := now }
  (cancelProcessTimers true tp1).1

/-- C3: a persistent-timer tick that finds the process unthrottled with no
violation within the last 60 seconds transitions it back to Stable and
cancels its recurring timer; further Persistent-tick requests dispatched for
that pid after the transition return the state unchanged. -/
theorem persistentTick_clean_to_stable
    (s : EngineState) (pid now vs : Nat) (tp : TrackedProcess)
    (htp : alookup s.tracked pid = some tp)
    (hh : tp.hasProcessHandle = true)
    (hq : s.hasTimerQueue = true)
    (hph : tp.phase = ProcessPhase.PERSISTENT)
    (hpt : tp.persistentTimer.isSome = true)
    (hclean : PERSISTENT_CLEAN_THRESHOLD ≤
      (if 0 < tp.lastViolationTime then sub64 now tp.lastViolationTime
       else sub64 now tp.phaseStartTime)) :
    ∃ tp',
      alookup (dispatchEnforcementRequest s
        ⟨pid, EnforcementRequestType.PERSISTENT_ENFORCE, vs⟩ now false).1.tracked pid
        = some tp' ∧
      tp'.phase = ProcessPhase.STABLE ∧
      tp'.persistentTimer = none ∧
      tp'.persistentTimerContext = none ∧
      (∀ now' vs' eco',
        dispatchEnforcementRequest
          (dispatchEnforcementRequest s
            ⟨pid, EnforcementRequestType.PERSISTENT_ENFORCE, vs⟩ now false).1
          ⟨pid, EnforcementRequestType.PERSISTENT_ENFORCE, vs'⟩ now' eco'
        = ((dispatchEnforcementRequest s
            ⟨pid, EnforcementRequestType.PERSISTENT_ENFORCE, vs⟩ now false).1, [])) := by
  have hcf := cancelProcessTimers_fields
    { tp with lastCheckTime := now, phase := ProcessPhase.STABLE, phaseStartTime := now }
  have hstate : (dispatchEnforcementRequest s
      ⟨pid, EnforcementRequestType.PERSISTENT_ENFORCE, vs⟩ now false).1
      = { s with tracked := ainsert s.tracked pid (stableAfterTick tp now) } := by
    unfold dispatchEnforcementRequest
    rw [htp]
    simp [hh, hph, hclean, hq, stableAfterTick]
  have hph' : (stableAfterTick tp now).phase = ProcessPhase.STABLE :=
    hcf.2.2.2.2.1.trans (by simp)
  have hh' : (stableAfterTick tp now).hasProcessHandle = true :=
    hcf.2.2.2.2.2.1.trans (by simp [hh])
  refine ⟨_, by rw [hstate]; exact alookup_ainsert_self _ _ _, ?_, ?_, ?_, ?_⟩
  · exact hph'
  · exact hcf.1
  · exact hcf.2.2.1.trans (by simp [hpt])
  · intro now' vs' eco'
    rw [hstate]
    unfold dispatchEnforcementRequest
    rw [alookup_ainsert_self]
    simp [hph', hh']

/-- A concrete Persistent-phase tracked process for the C3 witness. -/
def c3tp : TrackedProcess :=
  { c7tp with
    phase := ProcessPhase.PERSISTENT
    persistentTimer := some 5
    persistentTimerContext := some 5
    lastViolationTime := 1 }

/-- A concrete engine state tracking `c3tp` under pid 10. -/
def c3state : EngineState :=
  { tracked := [(10, c3tp)], waitContexts := [(10, 0)], errorLogSuppression := [],
    targetSet := ["app.exe"], nextCtx := 6, hasTimerQueue := true, totalViolations := 0 }

/-- Witness for C3 at a concrete state, 70 seconds after the last violation. -/
theorem persistentTick_clean_to_stable_witness :
    (alookup c3state.tracked 10 = some c3tp) ∧
    (c3tp.hasProcessHandle = true) ∧
    (c3state.hasTimerQueue = true) ∧
    (c3tp.phase = ProcessPhase.PERSISTENT) ∧
    (c3tp.persistentTimer.isSome = true) ∧
    (PERSISTENT_CLEAN_THRESHOLD ≤
      (if 0 < c3tp.lastViolationTime then sub64 70001 c3tp.lastViolationTime
       else sub64 70001 c3tp.phaseStartTime)) ∧
    (∃ tp',
      alookup (dispatchEnforcementRequest c3state
        ⟨10, EnforcementRequestType.PERSISTENT_ENFORCE, 0⟩ 70001 false).1.tracked 10
        = some tp' ∧
      tp'.phase = ProcessPhase.STABLE ∧
      tp'.persistentTimer = none ∧
      tp'.persistentTimerContext = none ∧
      (∀ now' vs' eco',
        dispatchEnforcementRequest
          (dispatchEnforcementRequest c3state
            ⟨10, EnforcementRequestType.PERSISTENT_ENFORCE, 0⟩ 70001 false).1
          ⟨10, EnforcementRequestType.PERSISTENT_ENFORCE, vs'⟩ now' eco'
        = ((dispatchEnforcementRequest c3state
            ⟨10, EnforcementRequestType.PERSISTENT_ENFORCE, 0⟩ 70001 false).1, []))) :=
  ⟨rfl, rfl, rfl, rfl, rfl, by decide,
   persistentTick_clean_to_stable c3state 10 70001 0 c3tp rfl rfl rfl rfl rfl (by decide)⟩

/-! ## C2: Aggressive-phase deferred verification -/

/-- Dispatch of a `DEFERRED_VERIFICATION` request. -/
def dispatchDV (s : EngineState) (pid step now : Nat) (eco : Bool) :
    EngineState × List EngineAction :=
  dispatchEnforcementRequest s
    ⟨pid, EnforcementRequestType.DEFERRED_VERIFICATION, step⟩ now eco

/-- The tracked record after the fired deferred timer's context is cleaned
up and a violation is counted. -/
def dvViolTp (tp : TrackedProcess) : TrackedProcess :=
  { tp with
    deferredTimerContext := none
    deferredTimer := none
    violationCount := tp.violationCount + 1 }

/-- Engine state once the counted violation is committed to the table. -/
def dvViolState (s : EngineState) (pid : Nat) (tp : TrackedProcess) : EngineState :=
  { s with
    tracked := ainsert s.tracked pid (dvViolTp tp)
    totalViolations := s.totalViolations + 1 }

/-- The violation record marked Persistent (threshold branch). -/
def dvPersistTp (tp : TrackedProcess) : TrackedProcess :=
  { dvViolTp tp with phase := ProcessPhase.PERSISTENT }

/-- The violation record with a restarted phase clock (restart branch). -/
def dvRestartTp (tp : TrackedProcess) (now : Nat) : TrackedProcess :=
  { dvViolTp tp with phaseStartTime := now }

/-- State just before `StartPersistentTimer` in the threshold branch. -/
def dvPersistPre (s : EngineState) (pid : Nat) (tp : TrackedProcess) : EngineState :=
  let s1 := dvViolState s pid tp
  { s1 with tracked := ainsert s1.tracked pid (cancelProcessTimers true (dvPersistTp tp)).1 }

/-- State just before `ScheduleDeferredVerification` in the restart branch. -/
def dvRestartPre (s : EngineState) (pid now : Nat) (tp : TrackedProcess) : EngineState :=
  let s1 := dvViolState s pid tp
  { s1 with tracked := ainsert s1.tracked pid (cancelProcessTimers true (dvRestartTp tp now)).1 }

/-- The record after a clean verification, timer context freed. -/
def dvCleanTp (tp : TrackedProcess) : TrackedProcess :=
  { tp with deferredTimerContext := none, deferredTimer := none }

/-- The record after the final clean verification: Stable, timers cancelled. -/
def dvStableTp (tp : TrackedProcess) (now : Nat) : TrackedProcess :=
  { (cancelProcessTimers true
      { dvCleanTp tp with phase := ProcessPhase.STABLE, phaseStartTime := now }).1 with
    lastCheckTime := now }

/-- State before scheduling the next step in the pass-through branch. -/
def dvNextPre (s : EngineState) (pid : Nat) (tp : TrackedProcess) : EngineState :=
  { s with tracked := ainsert s.tracked pid (dvCleanTp tp) }

/-- The deferred-verification trace prefix: context free (when owned) then
the enforcement pulse. -/
def dvFreed (tp : TrackedProcess) : List EngineAction :=
  (tp.deferredTimerContext.map (fun c => [EngineAction.freeContext c])).getD []

theorem cancel_violationCount (b : Bool) (tp : TrackedProcess) :
    (cancelProcessTimers b tp).1.violationCount = tp.violationCount := by
  unfold cancelProcessTimers
  cases b <;> cases hd : tp.deferredTimer <;> cases hp : tp.persistentTimer <;> simp [hd, hp]

theorem cancel_phase (b : Bool) (tp : TrackedProcess) :
    (cancelProcessTimers b tp).1.phase = tp.phase := by
  unfold cancelProcessTimers
  cases b <;> cases hd : tp.deferredTimer <;> cases hp : tp.persistentTimer <;> simp [hd, hp]

theorem cancel_phaseStartTime (b : Bool) (tp : TrackedProcess) :
    (cancelProcessTimers b tp).1.phaseStartTime = tp.phaseStartTime := by
  unfold cancelProcessTimers
  cases b <;> cases hd : tp.deferredTimer <;> cases hp : tp.persistentTimer <;> simp [hd, hp]

theorem cancel_hasProcessHandle (b : Bool) (tp : TrackedProcess) :
    (cancelProcessTimers b tp).1.hasProcessHandle = tp.hasProcessHandle := by
  unfold cancelProcessTimers
  cases b <;> cases hd : tp.deferredTimer <;> cases hp : tp.persistentTimer <;> simp [hd, hp]

/-- C2: in the Aggressive phase, a deferred verification that finds the
process still throttled increments its violation counter and re-applies the
override, then transitions to Persistent and starts the recurring persistent
timer when the counter has reached 3, and otherwise restarts the 3-step
sequence from step 1 (+200ms); a verification that passes at the final step
(step 3) transitions to Stable, and one that passes at step 1 or step 2
schedules the next step at +1s resp. +3s cumulative from phase entry. -/
theorem deferredVerification_aggressive
    (s : EngineState) (pid now step : Nat) (eco : Bool) (tp : TrackedProcess)
    (htp : alookup s.tracked pid = some tp)
    (hh : tp.hasProcessHandle = true)
    (hq : s.hasTimerQueue = true)
    (hph : tp.phase = ProcessPhase.AGGRESSIVE) :
    (eco = true →
      ∃ tp', alookup (dispatchDV s pid step now eco).1.tracked pid = some tp' ∧
        tp'.violationCount = tp.violationCount + 1 ∧
        EngineAction.pulseEnforce pid ∈ (dispatchDV s pid step now eco).2 ∧
        (VIOLATION_THRESHOLD ≤ tp.violationCount + 1 →
          tp'.phase = ProcessPhase.PERSISTENT ∧
          tp'.persistentTimer.isSome = true ∧
          EngineAction.startPersistent pid PERSISTENT_ENFORCE_INTERVAL
              PERSISTENT_ENFORCE_INTERVAL
            ∈ (dispatchDV s pid step now eco).2) ∧
        (tp.violationCount + 1 < VIOLATION_THRESHOLD →
          tp'.phase = ProcessPhase.AGGRESSIVE ∧
          tp'.phaseStartTime = now ∧
          EngineAction.scheduleDeferred pid 1 DEFERRED_VERIFY_1
            ∈ (dispatchDV s pid step now eco).2)) ∧
    (eco = false → 3 ≤ step →
      ∃ tp', alookup (dispatchDV s pid step now eco).1.tracked pid = some tp' ∧
        tp'.phase = ProcessPhase.STABLE ∧
        tp'.persistentTimer = none ∧ tp'.deferredTimer = none) ∧
    (eco = false → step = 1 →
      EngineAction.scheduleDeferred pid 2 (DEFERRED_VERIFY_2 - DEFERRED_VERIFY_1)
        ∈ (dispatchDV s pid step now eco).2 ∧
      DEFERRED_VERIFY_1 + (DEFERRED_VERIFY_2 - DEFERRED_VERIFY_1) = 1000) ∧
    (eco = false → step = 2 →
      EngineAction.scheduleDeferred pid 3 (DEFERRED_VERIFY_FINAL - DEFERRED_VERIFY_2)
        ∈ (dispatchDV s pid step now eco).2 ∧
      DEFERRED_VERIFY_2 + (DEFERRED_VERIFY_FINAL - DEFERRED_VERIFY_2) = 3000) := by
  refine ⟨?_, ?_, ?_, ?_⟩
  · -- still throttled: violation counted, override re-applied, then branch
    intro heco
    subst heco
    by_cases hv : VIOLATION_THRESHOLD ≤ tp.violationCount + 1
    · -- threshold reached: Persistent + recurring timer
      have hred : dispatchDV s pid step now true
          = (modifyTracked (startPersistentTimer (dvPersistPre s pid tp) pid).1 pid
               (fun t => { t with lastCheckTime := now }),
             dvFreed tp ++ EngineAction.pulseEnforce pid ::
               ((cancelProcessTimers true (dvPersistTp tp)).2 ++
                 (startPersistentTimer (dvPersistPre s pid tp) pid).2)) := by
        unfold dispatchDV dispatchEnforcementRequest
        simp only [htp, hh, hph]
        simp [hv, hq, hh, hph, dvPersistPre, dvViolState, dvViolTp, dvPersistTp, dvFreed]
      rw [hred]
      have hl2 : alookup (dvPersistPre s pid tp).tracked pid
          = some (cancelProcessTimers true (dvPersistTp tp)).1 := by
        unfold dvPersistPre
        exact alookup_ainsert_self _ _ _
      have hq2 : (dvPersistPre s pid tp).hasTimerQueue = true := hq
      have hsp := startPersistentTimer_lookup _ pid _ hq2 hl2
      have hm := modifyTracked_lookup _ pid
        (fun t => { t with lastCheckTime := now }) _ hsp.1
      refine ⟨_, hm, ?_, ?_, ?_, ?_⟩
      · simp [cancel_violationCount, dvPersistTp, dvViolTp]
      · simp
      · intro _
        refine ⟨?_, ?_, ?_⟩
        · simp [cancel_phase, dvPersistTp]
        · simp
        · simp [hsp.2]
      · intro hlt
        omega
    · -- below threshold: restart the sequence from step 1 at +200ms
      have hred : dispatchDV s pid step now true
          = (modifyTracked (scheduleDeferredVerification (dvRestartPre s pid now tp) pid 1).1
               pid (fun t => { t with lastCheckTime := now }),
             dvFreed tp ++ EngineAction.pulseEnforce pid ::
               ((cancelProcessTimers true (dvRestartTp tp now)).2 ++
                 (scheduleDeferredVerification (dvRestartPre s pid now tp) pid 1).2)) := by
        unfold dispatchDV dispatchEnforcementRequest
        simp only [htp, hh, hph]
        simp [hv, hq, hh, hph, dvRestartPre, dvViolState, dvViolTp, dvRestartTp, dvFreed]
      rw [hred]
      have hl2 : alookup (dvRestartPre s pid now tp).tracked pid
          = some (cancelProcessTimers true (dvRestartTp tp now)).1 := by
        unfold dvRestartPre
        exact alookup_ainsert_self _ _ _
      have hq2 : (dvRestartPre s pid now tp).hasTimerQueue = true := hq
      have hsd := scheduleDeferredVerification_spec _ pid 1 DEFERRED_VERIFY_1 _ hq2 hl2
        (Or.inl ⟨rfl, rfl⟩)
      have hm := modifyTracked_lookup _ pid
        (fun t => { t with lastCheckTime := now }) _ hsd.1
      refine ⟨_, hm, ?_, ?_, ?_, ?_⟩
      · simp [cancel_violationCount, dvRestartTp, dvViolTp]
      · simp
      · intro hge
        exact absurd hge hv
      · intro _
        refine ⟨?_, ?_, ?_⟩
        · simp [cancel_phase, dvRestartTp, dvViolTp, hph]
        · simp [cancel_phaseStartTime, dvRestartTp]
        · simp [hsd.2]
  · -- clean at the final step: Stable, timers cancelled
    intro heco hstep
    subst heco
    have hred : dispatchDV s pid step now false
        = ({ s with tracked := ainsert s.tracked pid (dvStableTp tp now) },
           dvFreed tp ++ (cancelProcessTimers true
             { dvCleanTp tp with phase := ProcessPhase.STABLE, phaseStartTime := now }).2) := by
      unfold dispatchDV dispatchEnforcementRequest
      simp only [htp, hh, hph]
      simp [hstep, hq, hh, hph, dvStableTp, dvCleanTp, dvFreed]
    rw [hred]
    have hcf := cancelProcessTimers_fields
      { dvCleanTp tp with phase := ProcessPhase.STABLE, phaseStartTime := now }
    refine ⟨_, alookup_ainsert_self _ _ _, ?_, ?_, ?_⟩
    · simpa [dvStableTp, dvCleanTp] using hcf.2.2.2.2.1
    · simpa [dvStableTp] using hcf.1
    · simpa [dvStableTp] using hcf.2.1
  · -- clean at step 1: schedule step 2 (+1s cumulative)
    intro heco hstep
    subst heco
    subst hstep
    have hred : dispatchDV s pid 1 now false
        = (modifyTracked (scheduleDeferredVerification (dvNextPre s pid tp) pid 2).1 pid
             (fun t => { t with lastCheckTime := now }),
           dvFreed tp ++ (scheduleDeferredVerification (dvNextPre s pid tp) pid 2).2) := by
      unfold dispatchDV dispatchEnforcementRequest
      simp only [htp, hh, hph]
      simp [hh, hph, dvNextPre, dvCleanTp, dvFreed]
    rw [hred]
    have hl1 : alookup (dvNextPre s pid tp).tracked pid = some (dvCleanTp tp) := by
      unfold dvNextPre
      exact alookup_ainsert_self _ _ _
    have hq1 : (dvNextPre s pid tp).hasTimerQueue = true := hq
    have hsd := scheduleDeferredVerification_spec _ pid 2
      (DEFERRED_VERIFY_2 - DEFERRED_VERIFY_1) _ hq1 hl1 (Or.inr (Or.inl ⟨rfl, rfl⟩))
    exact ⟨by simp [hsd.2], by decide⟩
  · -- clean at step 2: schedule step 3 (+3s cumulative)
    intro heco hstep
    subst heco
    subst hstep
    have hred : dispatchDV s pid 2 now false
        = (modifyTracked (scheduleDeferredVerification (dvNextPre s pid tp) pid 3).1 pid
             (fun t => { t with lastCheckTime := now }),
           dvFreed tp ++ (scheduleDeferredVerification (dvNextPre s pid tp) pid 3).2) := by
      unfold dispatchDV dispatchEnforcementRequest
      simp only [htp, hh, hph]
      simp [hh, hph, dvNextPre, dvCleanTp, dvFreed]
    rw [hred]
    have hl1 : alookup (dvNextPre s pid tp).tracked pid = some (dvCleanTp tp) := by
      unfold dvNextPre
      exact alookup_ainsert_self _ _ _
    have hq1 : (dvNextPre s pid tp).hasTimerQueue = true := hq
    have hsd := scheduleDeferredVerification_spec _ pid 3
      (DEFERRED_VERIFY_FINAL - DEFERRED_VERIFY_2) _ hq1 hl1 (Or.inr (Or.inr ⟨rfl, rfl⟩))
    exact ⟨by simp [hsd.2], by decide⟩

/-- Witness for C2 at a concrete Aggressive-phase process and the final
verification step. -/
theorem deferredVerification_aggressive_witness :
    (alookup c7state.tracked 10 = some c7tp) ∧
    (c7tp.hasProcessHandle = true) ∧
    (c7state.hasTimerQueue = true) ∧
    (c7tp.phase = ProcessPhase.AGGRESSIVE) ∧
    ((false = true →
      ∃ tp', alookup (dispatchDV c7state 10 3 500 false).1.tracked 10 = some tp' ∧
        tp'.violationCount = c7tp.violationCount + 1 ∧
        EngineAction.pulseEnforce 10 ∈ (dispatchDV c7state 10 3 500 false).2 ∧
        (VIOLATION_THRESHOLD ≤ c7tp.violationCount + 1 →
          tp'.phase = ProcessPhase.PERSISTENT ∧
          tp'.persistentTimer.isSome = true ∧
          EngineAction.startPersistent 10 PERSISTENT_ENFORCE_INTERVAL
              PERSISTENT_ENFORCE_INTERVAL
            ∈ (dispatchDV c7state 10 3 500 false).2) ∧
        (c7tp.violationCount + 1 < VIOLATION_THRESHOLD →
          tp'.phase = ProcessPhase.AGGRESSIVE ∧
          tp'.phaseStartTime = 500 ∧
          EngineAction.scheduleDeferred 10 1 DEFERRED_VERIFY_1
            ∈ (dispatchDV c7state 10 3 500 false).2)) ∧
    (false = false → 3 ≤ 3 →
      ∃ tp', alookup (dispatchDV c7state 10 3 500 false).1.tracked 10 = some tp' ∧
        tp'.phase = ProcessPhase.STABLE ∧
        tp'.persistentTimer = none ∧ tp'.deferredTimer = none) ∧
    (false = false → 3 = 1 →
      EngineAction.scheduleDeferred 10 2 (DEFERRED_VERIFY_2 - DEFERRED_VERIFY_1)
        ∈ (dispatchDV c7state 10 3 500 false).2 ∧
      DEFERRED_VERIFY_1 + (DEFERRED_VERIFY_2 - DEFERRED_VERIFY_1) = 1000) ∧
    (false = false → 3 = 2 →
      EngineAction.scheduleDeferred 10 3 (DEFERRED_VERIFY_FINAL - DEFERRED_VERIFY_2)
        ∈ (dispatchDV c7state 10 3 500 false).2 ∧
      DEFERRED_VERIFY_2 + (DEFERRED_VERIFY_FINAL - DEFERRED_VERIFY_2) = 3000)) :=
  ⟨rfl, rfl, rfl, rfl,
   deferredVerification_aggressive c7state 10 500 3 false c7tp rfl rfl rfl rfl⟩

/-! ## C9: exactly-once removal and context freeing -/

theorem aerase_of_alookup_none {κ α : Type} [DecidableEq κ] (l : List (κ × α)) (k : κ)
    (h : alookup l k = none) : aerase l k = l := by
  induction l with
  | nil => rfl
  | cons p t ih =>
      obtain ⟨a, b⟩ := p
      by_cases ha : a = k
      · simp [alookup, ha] at h
      · have ht : alookup t k = none := by simpa [alookup, ha] using h
        have := ih ht
        simp [aerase, ha] at this ⊢
        exact this

/-- C9: processing an exit removal for a tracked pid removes it from the
table exactly once and frees each of its two owned timer-callback contexts
(deferred and persistent) exactly once; a second removal request for the same
pid is a no-op that frees nothing, a safety-net request dispatched for the
removed pid leaves the state unchanged, and a removal request for any pid not
in the table frees nothing and does not change the table. -/
theorem removeTrackedProcess_exactly_once
    (s : EngineState) (pid cd cp cw : Nat) (tp : TrackedProcess)
    (htp : alookup s.tracked pid = some tp)
    (hq : s.hasTimerQueue = true)
    (hdt : tp.deferredTimer.isSome = true)
    (hdc : tp.deferredTimerContext = some cd)
    (hpt : tp.persistentTimer.isSome = true)
    (hpc : tp.persistentTimerContext = some cp)
    (hw : alookup s.waitContexts pid = some cw)
    (hne1 : cw ≠ cp) (hne2 : cw ≠ cd) (hne3 : cp ≠ cd) :
    alookup (removeTrackedProcess s pid).1.tracked pid = none ∧
    alookup (removeTrackedProcess s pid).1.waitContexts pid = none ∧
    (removeTrackedProcess s pid).2
      = [EngineAction.freeContext cw, EngineAction.freeContext cp,
         EngineAction.freeContext cd] ∧
    removeTrackedProcess (removeTrackedProcess s pid).1 pid
      = ((removeTrackedProcess s pid).1, []) ∧
    ((removeTrackedProcess s pid).2
        ++ (removeTrackedProcess (removeTrackedProcess s pid).1 pid).2).count
        (EngineAction.freeContext cd) = 1 ∧
    ((removeTrackedProcess s pid).2
        ++ (removeTrackedProcess (removeTrackedProcess s pid).1 pid).2).count
        (EngineAction.freeContext cp) = 1 ∧
    (∀ now eco, dispatchEnforcementRequest (removeTrackedProcess s pid).1
        ⟨pid, EnforcementRequestType.SAFETY_NET, 0⟩ now eco
      = ((removeTrackedProcess s pid).1, [])) ∧
    (∀ t : EngineState, alookup t.tracked pid = none →
      alookup t.waitContexts pid = none →
      (removeTrackedProcess t pid).2 = [] ∧
      (removeTrackedProcess t pid).1.tracked = t.tracked) := by
  have hstate : removeTrackedProcess s pid
      = ({ s with
            tracked := aerase s.tracked pid
            waitContexts := aerase s.waitContexts pid
            errorLogSuppression := s.errorLogSuppression.filter (fun e => e.1.1 ≠ pid) },
         [EngineAction.freeContext cw, EngineAction.freeContext cp,
          EngineAction.freeContext cd]) := by
    unfold removeTrackedProcess
    simp [htp, hq, hdt, hdc, hpt, hpc, hw]
  have h1 : alookup (removeTrackedProcess s pid).1.tracked pid = none := by
    rw [hstate]
    exact alookup_aerase_self _ _
  have h2 : alookup (removeTrackedProcess s pid).1.waitContexts pid = none := by
    rw [hstate]
    exact alookup_aerase_self _ _
  have hsecond : removeTrackedProcess (removeTrackedProcess s pid).1 pid
      = ((removeTrackedProcess s pid).1, []) := by
    rw [hstate] at h1 h2 ⊢
    unfold removeTrackedProcess
    simp [h1, h2]
    exact aerase_of_alookup_none _ _ (by simpa using h2)
  refine ⟨h1, h2, by rw [hstate], hsecond, ?_, ?_, ?_, ?_⟩
  · rw [hsecond, hstate]
    simp [List.count_cons, hne2, hne3]
  · rw [hsecond, hstate]
    simp [List.count_cons, hne1, hne3.symm]
  · intro now eco
    unfold dispatchEnforcementRequest
    simp [h1]
  · intro t ht1 ht2
    unfold removeTrackedProcess
    simp [ht1, ht2]

/-- A concrete tracked process with live deferred and persistent timers. -/
def c9tp : TrackedProcess :=
  { c7tp with
    deferredTimer := some 1
    deferredTimerContext := some 1
    persistentTimer := some 2
    persistentTimerContext := some 2 }

/-- A concrete engine state tracking `c9tp` under pid 10, wait context 0. -/
def c9state : EngineState :=
  { tracked := [(10, c9tp)], waitContexts := [(10, 0)], errorLogSuppression := [],
    targetSet := ["app.exe"], nextCtx := 3, hasTimerQueue := true, totalViolations := 0 }

/-- Witness for C9 at a concrete tracked process owning both timer contexts. -/
theorem removeTrackedProcess_exactly_once_witness :
    (alookup c9state.tracked 10 = some c9tp) ∧
    (alookup c9state.waitContexts 10 = some 0) ∧
    (alookup (removeTrackedProcess c9state 10).1.tracked 10 = none ∧
     alookup (removeTrackedProcess c9state 10).1.waitContexts 10 = none ∧
     (removeTrackedProcess c9state 10).2
       = [EngineAction.freeContext 0, EngineAction.freeContext 2,
          EngineAction.freeContext 1] ∧
     removeTrackedProcess (removeTrackedProcess c9state 10).1 10
       = ((removeTrackedProcess c9state 10).1, []) ∧
     ((removeTrackedProcess c9state 10).2
         ++ (removeTrackedProcess (removeTrackedProcess c9state 10).1 10).2).count
         (EngineAction.freeContext 1) = 1 ∧
     ((removeTrackedProcess c9state 10).2
         ++ (removeTrackedProcess (removeTrackedProcess c9state 10).1 10).2).count
         (EngineAction.freeContext 2) = 1 ∧
     (∀ now eco, dispatchEnforcementRequest (removeTrackedProcess c9state 10).1
         ⟨10, EnforcementRequestType.SAFETY_NET, 0⟩ now eco
       = ((removeTrackedProcess c9state 10).1, [])) ∧
     (∀ t : EngineState, alookup t.tracked 10 = none →
       alookup t.waitContexts 10 = none →
       (removeTrackedProcess t 10).2 = [] ∧
       (removeTrackedProcess t 10).1.tracked = t.tracked)) :=
  ⟨rfl, rfl,
   removeTrackedProcess_exactly_once c9state 10 1 2 0 c9tp rfl rfl rfl rfl rfl rfl rfl
     (by decide) (by decide) (by decide)⟩

/-! ## C8: target-set reconciliation -/

theorem removeTrackedProcess_tracked (st : EngineState) (p : Nat) :
    (removeTrackedProcess st p).1.tracked = aerase st.tracked p := by
  unfold removeTrackedProcess
  cases h : alookup st.tracked p with
  | none =>
      simp
      exact (aerase_of_alookup_none _ _ h).symm
  | some tp => simp

theorem foldRemove_tracked (l : List Nat) (st : EngineState) (k : Nat) :
    alookup (l.foldl (fun acc p => (removeTrackedProcess acc p).1) st).tracked k
      = if k ∈ l then none else alookup st.tracked k := by
  induction l generalizing st with
  | nil => simp
  | cons p rest ih =>
      simp only [List.foldl_cons]
      rw [ih, removeTrackedProcess_tracked, alookup_aerase]
      by_cases h1 : k ∈ rest <;> by_cases h2 : k = p <;>
        simp [h1, h2, List.mem_cons]

theorem alookup_unique {κ α : Type} [DecidableEq κ] (l : List (κ × α)) (k : κ) (v v' : α)
    (hnd : (l.map Prod.fst).Nodup) (h : alookup l k = some v) (hm : (k, v') ∈ l) :
    v' = v := by
  induction l with
  | nil => cases hm
  | cons p t ih =>
      obtain ⟨a, b⟩ := p
      simp only [List.map_cons, List.nodup_cons] at hnd
      rcases List.mem_cons.mp hm with he | ht
      · have ha : a = k := by cases he; rfl
        subst ha
        simp [alookup] at h
        cases he
        exact h
      · by_cases ha : a = k
        · subst ha
          exact absurd (List.mem_map_of_mem Prod.fst ht) (by simpa using hnd.1)
        · exact ih hnd.2 (by simpa [alookup, ha] using h) ht

/-- C8: after a reconciliation, a tracked root whose lowered name left the
target set has been removed from the table; a tracked child whose own name is
still a target remains tracked; and a tracked child is removed only when its
parent pid is no longer in the (pre-reconciliation) table and its own name is
not itself a target. -/
theorem cleanupRemovedTargets_spec (s : EngineState) (pid : Nat) (tp : TrackedProcess)
    (hnd : (s.tracked.map Prod.fst).Nodup)
    (htp : alookup s.tracked pid = some tp) :
    (tp.isChild = false → s.targetSet.contains (toLowerStr tp.name) = false →
       alookup (cleanupRemovedTargets s).tracked pid = none) ∧
    (tp.isChild = true → s.targetSet.contains (toLowerStr tp.name) = true →
       alookup (cleanupRemovedTargets s).tracked pid = some tp) ∧
    (tp.isChild = true → alookup (cleanupRemovedTargets s).tracked pid = none →
       alookup s.tracked tp.parentPid = none ∧
       s.targetSet.contains (toLowerStr tp.name) = false) := by
  have hmem : (pid, tp) ∈ s.tracked := alookup_mem _ _ _ htp
  have hfold : ∀ k, alookup (cleanupRemovedTargets s).tracked k
      = if k ∈ ((s.tracked.filter (fun e =>
            if e.2.isChild then
              !(alookup s.tracked e.2.parentPid).isSome && !(isTargetName s e.2.name)
            else
              !(s.targetSet.contains (toLowerStr e.2.name)))).map (fun e => e.1))
        then none else alookup s.tracked k := by
    intro k
    unfold cleanupRemovedTargets
    exact foldRemove_tracked _ _ k
  refine ⟨?_, ?_, ?_⟩
  · intro hroot hnot
    rw [hfold]
    have hnot' : toLowerStr tp.name ∉ s.targetSet := by simpa using hnot
    have hin : pid ∈ ((s.tracked.filter (fun e =>
        if e.2.isChild then
          !(alookup s.tracked e.2.parentPid).isSome && !(isTargetName s e.2.name)
        else
          !(s.targetSet.contains (toLowerStr e.2.name)))).map (fun e => e.1)) := by
      refine List.mem_map.mpr ⟨(pid, tp), ?_, rfl⟩
      refine List.mem_filter.mpr ⟨hmem, ?_⟩
      simp [hroot, hnot']
    rw [if_pos hin]
  · intro hchild htarget
    rw [hfold]
    have ht' : toLowerStr tp.name ∈ s.targetSet := by simpa using htarget
    have hnotin : pid ∉ ((s.tracked.filter (fun e =>
        if e.2.isChild then
          !(alookup s.tracked e.2.parentPid).isSome && !(isTargetName s e.2.name)
        else
          !(s.targetSet.contains (toLowerStr e.2.name)))).map (fun e => e.1)) := by
      intro hin
      rcases List.mem_map.mp hin with ⟨e, hef, hpe⟩
      rcases List.mem_filter.mp hef with ⟨hel, hcond⟩
      obtain ⟨k, v⟩ := e
      simp only [] at hpe
      subst hpe
      have hv : v = tp := alookup_unique s.tracked k tp v hnd htp hel
      subst hv
      rw [hchild] at hcond
      simp [isTargetName, ht'] at hcond
    rw [if_neg hnotin]
    exact htp
  · intro hchild hnone
    rw [hfold] at hnone
    by_cases hin : pid ∈ ((s.tracked.filter (fun e =>
        if e.2.isChild then
          !(alookup s.tracked e.2.parentPid).isSome && !(isTargetName s e.2.name)
        else
          !(s.targetSet.contains (toLowerStr e.2.name)))).map (fun e => e.1))
    · rcases List.mem_map.mp hin with ⟨e, hef, hpe⟩
      rcases List.mem_filter.mp hef with ⟨hel, hcond⟩
      obtain ⟨k, v⟩ := e
      simp only [] at hpe
      subst hpe
      have hv : tp = v := (alookup_unique s.tracked k tp v hnd htp hel).symm
      subst hv
      rw [hchild] at hcond
      simp [isTargetName] at hcond
      obtain ⟨hpar, hntgt⟩ := hcond
      constructor
      · cases hp : alookup s.tracked tp.parentPid with
        | none => rfl
        | some x =>
            rw [hp] at hpar
            simp at hpar
      · simpa using hntgt
    · rw [if_neg hin] at hnone
      simp [htp] at hnone
/-- A concrete root tracked process whose name is no longer a target. -/
def c8tp : TrackedProcess := mkTrackedProcess 11 1 "gone.exe" false 11 true false true 0

/-- A concrete engine state tracking `c8tp` with a target set not containing it. -/
def c8state : EngineState :=
  { tracked := [(11, c8tp)], waitContexts := [], errorLogSuppression := [],
    targetSet := ["app.exe"], nextCtx := 0, hasTimerQueue := true, totalViolations := 0 }

/-- Witness for C8 at a concrete dropped root target. -/
theorem cleanupRemovedTargets_spec_witness :
    ((c8state.tracked.map Prod.fst).Nodup) ∧
    (alookup c8state.tracked 11 = some c8tp) ∧
    ((c8tp.isChild = false → c8state.targetSet.contains (toLowerStr c8tp.name) = false →
        alookup (cleanupRemovedTargets c8state).tracked 11 = none) ∧
     (c8tp.isChild = true → c8state.targetSet.contains (toLowerStr c8tp.name) = true →
        alookup (cleanupRemovedTargets c8state).tracked 11 = some c8tp) ∧
     (c8tp.isChild = true → alookup (cleanupRemovedTargets c8state).tracked 11 = none →
        alookup c8state.tracked c8tp.parentPid = none ∧
        c8state.targetSet.contains (toLowerStr c8tp.name) = false)) :=
  ⟨by decide, rfl, cleanupRemovedTargets_spec c8state 11 c8tp (by decide) rfl⟩

/-! ## C6: control-loop termination and final drain -/

/-- C6 counterexample: a schedule consisting of one wakeup whose
`WaitForMultipleObjects` call fails (`WAIT_FAILED`) makes the loop terminate
although no iteration observed the stop signal (neither the stop flag at the
loop head nor the stop event from the wait), refuting the claim that the loop
terminates only after the stop signal has been observed. -/
theorem engineControlLoop_terminates_without_stop :
    (engineControlLoop [⟨false, [], WaitResult.waitFailed⟩] ⟨[], []⟩).isSome = true ∧
    (∀ it ∈ ([⟨false, [], WaitResult.waitFailed⟩] : List LoopIter),
      it.stopRequested = false ∧ it.wait ≠ WaitResult.stopSignal) := by
  decide

/-- C6 (amended): the control loop terminates only after the stop signal has
been observed (stop flag at the loop head, or the stop event from the wait)
or the wait call itself failed; and in every terminating execution it drains
all pending exit-notification removals after leaving the wait loop and before
returning: nothing remains queued, and the removal log extends the initial
log by the initially queued pids, in order, followed by the drained
arrivals. -/
theorem engineControlLoop_exit_spec
    (iters : List LoopIter) (st st' : LoopState) (ex : LoopExit)
    (h : engineControlLoop iters st = some (st', ex)) :
    (∃ it ∈ iters, it.stopRequested = true ∨ it.wait = WaitResult.stopSignal ∨
       it.wait = WaitResult.waitFailed) ∧
    st'.pendingRemovalPids = [] ∧
    (∃ tail, st'.removedLog = st.removedLog ++ st.pendingRemovalPids ++ tail) := by
  induction iters generalizing st with
  | nil => simp [engineControlLoop] at h
  | cons it rest ih =>
      by_cases hsr : it.stopRequested = true
      · simp only [engineControlLoop, hsr, if_true] at h
        obtain ⟨hst, hex⟩ := by simpa using h
        refine ⟨⟨it, List.mem_cons_self _ _, Or.inl hsr⟩, ?_, ?_⟩
        · rw [← hst]; rfl
        · exact ⟨[], by rw [← hst]; simp [processPendingRemovals]⟩
      · have hsr' : it.stopRequested = false := by simpa using hsr
        cases hw : it.wait with
        | stopSignal =>
            simp only [engineControlLoop, hsr', hw, Bool.false_eq_true, if_false] at h
            obtain ⟨hst, hex⟩ := by simpa using h
            refine ⟨⟨it, List.mem_cons_self _ _, Or.inr (Or.inl hw)⟩, ?_, ?_⟩
            · rw [← hst]; rfl
            · exact ⟨it.arrivals, by rw [← hst]; simp [processPendingRemovals]⟩
        | waitFailed =>
            simp only [engineControlLoop, hsr', hw, Bool.false_eq_true, if_false] at h
            obtain ⟨hst, hex⟩ := by simpa using h
            refine ⟨⟨it, List.mem_cons_self _ _, Or.inr (Or.inr hw)⟩, ?_, ?_⟩
            · rw [← hst]; rfl
            · exact ⟨it.arrivals, by rw [← hst]; simp [processPendingRemovals]⟩
        | processExit =>
            simp only [engineControlLoop, hsr', hw, Bool.false_eq_true, if_false] at h
            obtain ⟨⟨it2, hmem, hor⟩, hpend, tail, htail⟩ := ih _ h
            refine ⟨⟨it2, List.mem_cons_of_mem _ hmem, hor⟩, hpend,
              ⟨it.arrivals ++ tail, ?_⟩⟩
            rw [htail]
            simp [processPendingRemovals]
        | configChange =>
            simp only [engineControlLoop, hsr', hw, Bool.false_eq_true, if_false] at h
            obtain ⟨⟨it2, hmem, hor⟩, hpend, tail, htail⟩ := ih _ h
            refine ⟨⟨it2, List.mem_cons_of_mem _ hmem, hor⟩, hpend,
              ⟨it.arrivals ++ tail, ?_⟩⟩
            rw [htail]
            simp
        | safetyNet =>
            simp only [engineControlLoop, hsr', hw, Bool.false_eq_true, if_false] at h
            obtain ⟨⟨it2, hmem, hor⟩, hpend, tail, htail⟩ := ih _ h
            refine ⟨⟨it2, List.mem_cons_of_mem _ hmem, hor⟩, hpend,
              ⟨it.arrivals ++ tail, ?_⟩⟩
            rw [htail]
            simp
        | enforcementRequest =>
            simp only [engineControlLoop, hsr', hw, Bool.false_eq_true, if_false] at h
            obtain ⟨⟨it2, hmem, hor⟩, hpend, tail, htail⟩ := ih _ h
            refine ⟨⟨it2, List.mem_cons_of_mem _ hmem, hor⟩, hpend,
              ⟨it.arrivals ++ tail, ?_⟩⟩
            rw [htail]
            simp

/-- Witness for the amended C6 at a concrete two-wakeup schedule ending in
the stop event. -/
theorem engineControlLoop_exit_spec_witness :
    (engineControlLoop
        [⟨false, [7], WaitResult.processExit⟩, ⟨false, [], WaitResult.stopSignal⟩]
        ⟨[5], []⟩
      = some (⟨[], [5, 7]⟩, LoopExit.stopEvent)) ∧
    ((∃ it ∈ ([⟨false, [7], WaitResult.processExit⟩,
               ⟨false, [], WaitResult.stopSignal⟩] : List LoopIter),
        it.stopRequested = true ∨ it.wait = WaitResult.stopSignal ∨
        it.wait = WaitResult.waitFailed) ∧
     (⟨[], [5, 7]⟩ : LoopState).pendingRemovalPids = [] ∧
     (∃ tail, (⟨[], [5, 7]⟩ : LoopState).removedLog
        = (⟨[5], []⟩ : LoopState).removedLog
          ++ (⟨[5], []⟩ : LoopState).pendingRemovalPids ++ tail)) :=
  ⟨rfl, engineControlLoop_exit_spec
    [⟨false, [7], WaitResult.processExit⟩, ⟨false, [], WaitResult.stopSignal⟩]
    ⟨[5], []⟩ ⟨[], [5, 7]⟩ LoopExit.stopEvent rfl⟩

/-! ## C10: no reachable tracked entry has a critical-process name -/

theorem alookup_ainsert {κ α : Type} [DecidableEq κ]
    (l : List (κ × α)) (k k' : κ) (v : α) :
    alookup (ainsert l k v) k' = if k' = k then some v else alookup l k' := by
  by_cases h : k' = k
  · subst h
    simp [alookup_ainsert_self]
  · have h2 : ¬ k = k' := fun hh => h hh.symm
    simp only [ainsert, alookup, if_neg h2, if_neg h]
    exact alookup_aerase_ne _ _ _ h

theorem cancel_name (b : Bool) (tp : TrackedProcess) :
    (cancelProcessTimers b tp).1.name = tp.name := by
  unfold cancelProcessTimers
  cases b <;> cases hd : tp.deferredTimer <;> cases hp : tp.persistentTimer <;> simp [hd, hp]

/-- The deny-list invariant on a tracked-process table: no entry reachable by
lookup carries a critical-process image name. -/
def listOk (l : List (Nat × TrackedProcess)) : Prop :=
  ∀ p tp, alookup l p = some tp → isCriticalProcess tp.name = false

/-- The deny-list invariant on an engine state. -/
def trackedOk (s : EngineState) : Prop := listOk s.tracked

theorem listOk_ainsert {l : List (Nat × TrackedProcess)} {k : Nat} {v : TrackedProcess}
    (hl : listOk l) (hv : isCriticalProcess v.name = false) : listOk (ainsert l k v) := by
  intro p tp h
  rw [alookup_ainsert] at h
  split at h
  · cases h
    exact hv
  · exact hl p tp h

theorem listOk_aerase {l : List (Nat × TrackedProcess)} (k : Nat)
    (hl : listOk l) : listOk (aerase l k) := by
  intro p tp h
  rw [alookup_aerase] at h
  split at h
  · exact absurd h (by simp)
  · exact hl p tp h

theorem trackedOk_modifyTracked {s : EngineState} {pid : Nat}
    {f : TrackedProcess → TrackedProcess}
    (hf : ∀ tp, (f tp).name = tp.name) (hs : trackedOk s) :
    trackedOk (modifyTracked s pid f) := by
  unfold modifyTracked
  cases hlk : alookup s.tracked pid with
  | none => exact hs
  | some tp =>
      have hv : isCriticalProcess (f tp).name = false := by
        rw [hf]
        exact hs pid tp hlk
      exact listOk_ainsert hs hv

theorem trackedOk_scheduleDeferred {s : EngineState} (pid step : Nat)
    (hs : trackedOk s) : trackedOk (scheduleDeferredVerification s pid step).1 := by
  unfold scheduleDeferredVerification
  cases htq : !s.hasTimerQueue with
  | true => simp only [htq, if_true]; exact hs
  | false =>
      simp only [htq, Bool.false_eq_true, if_false]
      split
      · exact hs
      · cases hlk : alookup s.tracked pid with
        | none => simp only [hlk]; exact hs
        | some tp =>
            simp only [hlk]
            exact listOk_ainsert hs (hs pid tp hlk)

theorem trackedOk_startPersistent {s : EngineState} (pid : Nat)
    (hs : trackedOk s) : trackedOk (startPersistentTimer s pid).1 := by
  unfold startPersistentTimer
  cases htq : !s.hasTimerQueue with
  | true => simp only [htq, if_true]; exact hs
  | false =>
      simp only [htq, Bool.false_eq_true, if_false]
      cases hlk : alookup s.tracked pid with
      | none => simp only [hlk]; exact hs
      | some tp =>
          simp only [hlk]
          cases hp : tp.persistentTimer with
          | none => exact listOk_ainsert hs (hs pid tp hlk)
          | some c => exact listOk_ainsert hs (hs pid tp hlk)

theorem trackedOk_remove (s : EngineState) (pid : Nat) (hs : trackedOk s) :
    trackedOk (removeTrackedProcess s pid).1 := by
  unfold removeTrackedProcess
  cases hlk : alookup s.tracked pid with
  | none => simp only [hlk]; exact hs
  | some tp => simp only [hlk]; exact listOk_aerase pid hs

theorem trackedOk_handleEnforceError (s : EngineState) (pid error : Nat)
    (alive : Bool) (now : Nat) (hs : trackedOk s) :
    trackedOk (handleEnforceError s pid error alive now) := by
  unfold handleEnforceError
  cases hlk : alookup s.tracked pid with
  | none => exact hs
  | some tp =>
      have hname : isCriticalProcess tp.name = false := hs pid tp hlk
      simp only [hlk]
      repeat' split
      all_goals exact listOk_ainsert hs hname

theorem trackedOk_applyOptimization (s : EngineState) (pid : Nat) (name : String)
    (isChild : Bool) (parentPid : Nat) (openOk waitOk jobOk : Bool) (now : Nat)
    (hs : trackedOk s) :
    trackedOk (applyOptimization s pid name isChild parentPid openOk waitOk jobOk now) := by
  unfold applyOptimization
  split_ifs with h1 h2 h3 <;>
    first
      | exact hs
      | (refine trackedOk_scheduleDeferred pid 1 (listOk_ainsert hs ?_)
         simpa [mkTrackedProcess] using h2)

theorem trackedOk_onProcessStart (s : EngineState) (pid parentPid : Nat) (name : String)
    (stopRequested openOk waitOk jobOk : Bool) (now : Nat) (hs : trackedOk s) :
    trackedOk (onProcessStart s pid parentPid name stopRequested openOk waitOk jobOk now) := by
  unfold onProcessStart
  split_ifs with h1 h2 h3 h4
  · exact hs
  · exact hs
  · exact trackedOk_applyOptimization _ _ _ _ _ _ _ _ _ hs
  · exact trackedOk_applyOptimization _ _ _ _ _ _ _ _ _ hs
  · exact hs

theorem trackedOk_foldl {α : Type} (f : EngineState → α → EngineState)
    (hf : ∀ st a, trackedOk st → trackedOk (f st a)) :
    ∀ (l : List α) (s : EngineState), trackedOk s → trackedOk (l.foldl f s) := by
  intro l
  induction l with
  | nil => intro s hs; exact hs
  | cons a t ih => intro s hs; exact ih _ (hf s a hs)

theorem trackedOk_refreshJobObjectPids (s : EngineState) (entries : List JobScanEntry)
    (now : Nat) (hs : trackedOk s) : trackedOk (refreshJobObjectPids s entries now) := by
  unfold refreshJobObjectPids
  refine trackedOk_foldl _ ?_ entries s hs
  intro st e hst
  dsimp only
  split
  · exact hst
  · split
    · exact hst
    · split
      · exact hst
      · split
        · exact trackedOk_applyOptimization _ _ _ _ _ _ _ _ _ hst
        · exact hst

theorem trackedOk_initialScanForDegradedMode (s : EngineState)
    (snapshot : List SnapEntry) (now : Nat) (hs : trackedOk s) :
    trackedOk (initialScanForDegradedMode s snapshot now) := by
  unfold initialScanForDegradedMode
  refine trackedOk_foldl _ ?_ snapshot s hs
  intro st e hst
  dsimp only
  split_ifs with h1 h2 h3
  · exact hst
  · exact hst
  · exact trackedOk_applyOptimization _ _ _ _ _ _ _ _ _ hst
  · exact hst

theorem trackedOk_initialScan (s : EngineState) (snapshot : List SnapEntry)
    (now : Nat) (hs : trackedOk s) : trackedOk (initialScan s snapshot now) := by
  unfold initialScan
  refine trackedOk_foldl _ ?_ snapshot s hs
  intro st e hst
  dsimp only
  split
  · refine trackedOk_foldl _ ?_ _ _ ?_
    · intro st2 c hst2
      dsimp only
      split
      · split
        · exact hst2
        · exact trackedOk_applyOptimization _ _ _ _ _ _ _ _ _ hst2
      · exact hst2
    · split
      · exact trackedOk_applyOptimization _ _ _ _ _ _ _ _ _ hst
      · exact hst
  · exact hst

theorem trackedOk_refreshTargetSet (s : EngineState) (targets : List (String × Bool))
    (hs : trackedOk s) : trackedOk (refreshTargetSet s targets) := hs

theorem trackedOk_cleanupRemovedTargets (s : EngineState) (hs : trackedOk s) :
    trackedOk (cleanupRemovedTargets s) := by
  unfold cleanupRemovedTargets
  refine trackedOk_foldl _ ?_ _ s hs
  intro st pid hst
  exact trackedOk_remove st pid hst

theorem trackedOk_dispatch (s : EngineState) (req : EnforcementRequest)
    (now : Nat) (eco : Bool) (hs : trackedOk s) :
    trackedOk (dispatchEnforcementRequest s req now eco).1 := by
  unfold dispatchEnforcementRequest
  cases htp : alookup s.tracked req.pid with
  | none => exact hs
  | some tp =>
    have hname : isCriticalProcess tp.name = false := hs _ _ htp
    simp only [htp]
    cases hh : tp.hasProcessHandle with
    | false =>
        simp only [hh, Bool.not_false, if_true]
        exact hs
    | true =>
        simp only [hh, Bool.not_true, Bool.false_eq_true, if_false]
        cases hty : req.type with
        | ETW_THREAD_START =>
            dsimp only
            split_ifs <;>
              first
                | exact hs
                | exact listOk_ainsert hs hname
                | exact listOk_ainsert hs (by simpa [cancel_name] using hname)
                | exact trackedOk_modifyTracked (fun t => rfl) hs
                | exact trackedOk_modifyTracked (fun t => rfl)
                    (trackedOk_modifyTracked (fun t => rfl) hs)
                | exact trackedOk_modifyTracked (fun t => rfl)
                    (trackedOk_startPersistent req.pid
                      (trackedOk_modifyTracked (fun t => rfl) (listOk_ainsert hs hname)))
                | exact trackedOk_modifyTracked (fun t => rfl)
                    (trackedOk_scheduleDeferred req.pid 1
                      (trackedOk_modifyTracked (fun t => rfl) (listOk_ainsert hs hname)))
                | exact trackedOk_modifyTracked (fun t => rfl)
                    (trackedOk_scheduleDeferred req.pid (req.verifyStep + 1)
                      (listOk_ainsert hs hname))
                | exact trackedOk_modifyTracked (fun t => rfl)
                    (trackedOk_startPersistent req.pid
                      (listOk_ainsert (listOk_ainsert hs hname)
                        (by simpa [cancel_name] using hname)))
                | exact trackedOk_modifyTracked (fun t => rfl)
                    (trackedOk_scheduleDeferred req.pid 1
                      (listOk_ainsert (listOk_ainsert hs hname)
                        (by simpa [cancel_name] using hname)))
        | DEFERRED_VERIFICATION =>
            dsimp only
            split_ifs <;>
              first
                | exact hs
                | exact listOk_ainsert hs hname
                | exact listOk_ainsert hs (by simpa [cancel_name] using hname)
                | exact trackedOk_modifyTracked (fun t => rfl) hs
                | exact trackedOk_modifyTracked (fun t => rfl)
                    (trackedOk_modifyTracked (fun t => rfl) hs)
                | exact trackedOk_modifyTracked (fun t => rfl)
                    (trackedOk_startPersistent req.pid
                      (trackedOk_modifyTracked (fun t => rfl) (listOk_ainsert hs hname)))
                | exact trackedOk_modifyTracked (fun t => rfl)
                    (trackedOk_scheduleDeferred req.pid 1
                      (trackedOk_modifyTracked (fun t => rfl) (listOk_ainsert hs hname)))
                | exact trackedOk_modifyTracked (fun t => rfl)
                    (trackedOk_scheduleDeferred req.pid (req.verifyStep + 1)
                      (listOk_ainsert hs hname))
                | exact trackedOk_modifyTracked (fun t => rfl)
                    (trackedOk_startPersistent req.pid
                      (listOk_ainsert (listOk_ainsert hs hname)
                        (by simpa [cancel_name] using hname)))
                | exact trackedOk_modifyTracked (fun t => rfl)
                    (trackedOk_scheduleDeferred req.pid 1
                      (listOk_ainsert (listOk_ainsert hs hname)
                        (by simpa [cancel_name] using hname)))
        | PERSISTENT_ENFORCE =>
            dsimp only
            split_ifs <;>
              first
                | exact hs
                | exact listOk_ainsert hs hname
                | exact listOk_ainsert hs (by simpa [cancel_name] using hname)
                | exact trackedOk_modifyTracked (fun t => rfl) hs
                | exact trackedOk_modifyTracked (fun t => rfl)
                    (trackedOk_modifyTracked (fun t => rfl) hs)
                | exact trackedOk_modifyTracked (fun t => rfl)
                    (trackedOk_startPersistent req.pid
                      (trackedOk_modifyTracked (fun t => rfl) (listOk_ainsert hs hname)))
                | exact trackedOk_modifyTracked (fun t => rfl)
                    (trackedOk_scheduleDeferred req.pid 1
                      (trackedOk_modifyTracked (fun t => rfl) (listOk_ainsert hs hname)))
                | exact trackedOk_modifyTracked (fun t => rfl)
                    (trackedOk_scheduleDeferred req.pid (req.verifyStep + 1)
                      (listOk_ainsert hs hname))
                | exact trackedOk_modifyTracked (fun t => rfl)
                    (trackedOk_startPersistent req.pid
                      (listOk_ainsert (listOk_ainsert hs hname)
                        (by simpa [cancel_name] using hname)))
                | exact trackedOk_modifyTracked (fun t => rfl)
                    (trackedOk_scheduleDeferred req.pid 1
                      (listOk_ainsert (listOk_ainsert hs hname)
                        (by simpa [cancel_name] using hname)))
        | SAFETY_NET =>
            dsimp only
            split_ifs <;>
              first
                | exact hs
                | exact listOk_ainsert hs hname
                | exact listOk_ainsert hs (by simpa [cancel_name] using hname)
                | exact trackedOk_modifyTracked (fun t => rfl) hs
                | exact trackedOk_modifyTracked (fun t => rfl)
                    (trackedOk_modifyTracked (fun t => rfl) hs)
                | exact trackedOk_modifyTracked (fun t => rfl)
                    (trackedOk_startPersistent req.pid
                      (trackedOk_modifyTracked (fun t => rfl) (listOk_ainsert hs hname)))
                | exact trackedOk_modifyTracked (fun t => rfl)
                    (trackedOk_scheduleDeferred req.pid 1
                      (trackedOk_modifyTracked (fun t => rfl) (listOk_ainsert hs hname)))
                | exact trackedOk_modifyTracked (fun t => rfl)
                    (trackedOk_scheduleDeferred req.pid (req.verifyStep + 1)
                      (listOk_ainsert hs hname))
                | exact trackedOk_modifyTracked (fun t => rfl)
                    (trackedOk_startPersistent req.pid
                      (listOk_ainsert (listOk_ainsert hs hname)
                        (by simpa [cancel_name] using hname)))
                | exact trackedOk_modifyTracked (fun t => rfl)
                    (trackedOk_scheduleDeferred req.pid 1
                      (listOk_ainsert (listOk_ainsert hs hname)
                        (by simpa [cancel_name] using hname)))
        | ETW_PROCESS_START => exact hs

/-- One externally triggered engine operation: every code path of
`EngineCore` that can mutate the tracked-process table. -/
inductive EngineOp
  | procStart (pid parentPid : Nat) (name : String)
      (stopRequested openOk waitOk jobOk : Bool) (now : Nat)
  | jobRefresh (entries : List JobScanEntry) (now : Nat)
  | fullScan (snapshot : List SnapEntry) (now : Nat)
  | degradedScan (snapshot : List SnapEntry) (now : Nat)
  | enforce (req : EnforcementRequest) (now : Nat) (ecoQoSOn : Bool)
  | enforceError (pid error : Nat) (processAlive : Bool) (now : Nat)
  | processExit (pid : Nat)
  | targetsChanged (targets : List (String × Bool))
  | cleanupTargets
  deriving DecidableEq, Repr

/-- Apply one engine operation to the state. -/
def applyOp (s : EngineState) : EngineOp → EngineState
  | .procStart pid parentPid name stopRequested openOk waitOk jobOk now =>
      onProcessStart s pid parentPid name stopRequested openOk waitOk jobOk now
  | .jobRefresh entries now => refreshJobObjectPids s entries now
  | .fullScan snapshot now => initialScan s snapshot now
  | .degradedScan snapshot now => initialScanForDegradedMode s snapshot now
  | .enforce req now eco => (dispatchEnforcementRequest s req now eco).1
  | .enforceError pid error alive now => handleEnforceError s pid error alive now
  | .processExit pid => (removeTrackedProcess s pid).1
  | .targetsChanged targets => refreshTargetSet s targets
  | .cleanupTargets => cleanupRemovedTargets s

/-- The engine's state at startup: nothing tracked yet. -/
def initEngineState (hasTQ : Bool) : EngineState :=
  { tracked := [], waitContexts := [], errorLogSuppression := [], targetSet := [],
    nextCtx := 0, hasTimerQueue := hasTQ, totalViolations := 0 }

/-- The state reached from startup by a sequence of engine operations. -/
def runEngine (hasTQ : Bool) (ops : List EngineOp) : EngineState :=
  ops.foldl applyOp (initEngineState hasTQ)

theorem trackedOk_applyOp (s : EngineState) (op : EngineOp) (hs : trackedOk s) :
    trackedOk (applyOp s op) := by
  cases op with
  | procStart pid parentPid name stopRequested openOk waitOk jobOk now =>
      exact trackedOk_onProcessStart s pid parentPid name stopRequested openOk waitOk jobOk now hs
  | jobRefresh entries now => exact trackedOk_refreshJobObjectPids s entries now hs
  | fullScan snapshot now => exact trackedOk_initialScan s snapshot now hs
  | degradedScan snapshot now => exact trackedOk_initialScanForDegradedMode s snapshot now hs
  | enforce req now eco => exact trackedOk_dispatch s req now eco hs
  | enforceError pid error alive now =>
      exact trackedOk_handleEnforceError s pid error alive now hs
  | processExit pid => exact trackedOk_remove s pid hs
  | targetsChanged targets => exact trackedOk_refreshTargetSet s targets hs
  | cleanupTargets => exact trackedOk_cleanupRemovedTargets s hs

/-- C10: in every state of the engine reachable from startup by any sequence
of table-mutating operations (ETW process-start handling, the initial and
degraded-mode scans, job-object membership refresh, enforcement dispatch,
enforcement-error handling, process-exit removal, target-set reload and
removed-target cleanup), no tracked entry's image name is on the fixed
critical-process deny-list: every insertion path rejects a deny-listed name
before tracking it. -/
theorem reachable_states_never_track_critical (hasTQ : Bool) (ops : List EngineOp)
    (pid : Nat) (tp : TrackedProcess)
    (h : alookup (runEngine hasTQ ops).tracked pid = some tp) :
    isCriticalProcess tp.name = false := by
  have hok : trackedOk (runEngine hasTQ ops) := by
    unfold runEngine
    refine trackedOk_foldl applyOp trackedOk_applyOp ops _ ?_
    intro p tp' hl
    simp [initEngineState, alookup] at hl
  exact hok pid tp h

/-- A concrete operation sequence: configure one target, then see it start. -/
def c10ops : List EngineOp :=
  [EngineOp.targetsChanged [("Game.exe", true)],
   EngineOp.procStart 42 1 "Game.exe" false true true true 100]

/-- The entry tracked for pid 42 after `c10ops`. -/
def c10tp : TrackedProcess :=
  { mkTrackedProcess 42 0 "Game.exe" false 42 true false true 100 with
      deferredTimer := some 1, deferredTimerContext := some 1 }

/-- Witness for C10 at the concrete run `c10ops`. -/
theorem reachable_states_never_track_critical_witness :
    alookup (runEngine true c10ops).tracked 42 = some c10tp ∧
    isCriticalProcess c10tp.name = false :=
  ⟨by decide, reachable_states_never_track_critical true c10ops 42 c10tp (by decide)⟩

end UnLeaf
